import Mathlib

/-!
rendertron (Caddy middleware): a shallow embedding and its properties

The Go sources embedded here are `redertron.go` (the `Rendertron` handler: `Provision`,
`Validate`, `ServeHTTP`, the default patterns and their catalogs) and `client.go`
(`Options`, `NewProxyRendertronClient`, `ProxyRendertronClient.Render`).

Go strings are byte sequences, so they are lists of bytes here.  Functions of the Go standard
library that the program calls (`net/url`, `regexp`, `net/http`) are modelled in the first
part of the file, each under the name it has in Go.
-/

namespace rendertron

/-! ## Go strings -/

/-- A byte. -/
abbrev Byte := Fin 256

/-- A Go string: an immutable sequence of bytes. -/
abbrev GoString := List Byte

/-- The byte of an ASCII character literal. -/
def byte (c : Char) : Byte := Fin.ofNat c.toNat

/-- The bytes of a string literal (its UTF-8 encoding, as in a Go source file). -/
def str (s : String) : GoString :=
  s.toList.flatMap fun c => (String.utf8EncodeChar c).map fun b => b.val

/-- Go `strings.Join`. -/
def Join : List GoString → GoString → GoString
  | [], _ => []
  | [a], _ => a
  | a :: b :: rest, sep => a ++ sep ++ Join (b :: rest) sep

/-- Go `strings.HasSuffix`. -/
def HasSuffix (s suffix : GoString) : Bool := suffix.isSuffixOf s

/-! ## net/url: path-segment escaping -/

/-- The `encoding` modes of net/url that this program reaches. -/
inductive Encoding
  | encodePath
  | encodePathSegment
  deriving DecidableEq, Repr

/-- Go `url.shouldEscape` for the path modes: letters, digits and the marks
`- _ . ~` are never escaped; of the reserved characters `$ & + , / : ; = ? @` a path segment
escapes `/ ; , ?` and a path escapes `?`; every other byte is escaped. -/
def shouldEscape (c : Byte) (mode : Encoding) : Bool :=
  if (byte 'a' ≤ c ∧ c ≤ byte 'z') ∨ (byte 'A' ≤ c ∧ c ≤ byte 'Z')
      ∨ (byte '0' ≤ c ∧ c ≤ byte '9') then false
  else if c = byte '-' ∨ c = byte '_' ∨ c = byte '.' ∨ c = byte '~' then false
  else if c = byte '$' ∨ c = byte '&' ∨ c = byte '+' ∨ c = byte ',' ∨ c = byte '/'
      ∨ c = byte ':' ∨ c = byte ';' ∨ c = byte '=' ∨ c = byte '?' ∨ c = byte '@' then
    match mode with
    | .encodePath => c = byte '?'
    | .encodePathSegment => c = byte '/' ∨ c = byte ';' ∨ c = byte ',' ∨ c = byte '?'
  else true

/-- Go `upperhex = "0123456789ABCDEF"`, indexed by a nibble. -/
def upperhex (n : Nat) : Byte :=
  if n < 10 then Fin.ofNat (byte '0').val + Fin.ofNat n
  else Fin.ofNat (byte 'A').val + Fin.ofNat (n - 10)

/-- Go `url.escape`: every byte that `shouldEscape` selects becomes `%XY` with `XY` the upper
case hexadecimal digits of `c>>4` and `c&15`; the other bytes are copied. -/
def escape : GoString → Encoding → GoString
  | [], _ => []
  | c :: s, mode =>
    if shouldEscape c mode then
      byte '%' :: upperhex (c.val / 16) :: upperhex (c.val % 16) :: escape s mode
    else c :: escape s mode

/-- Go `url.PathEscape`. -/
def PathEscape (s : GoString) : GoString := escape s .encodePathSegment

/-- Go `url.ishex`. -/
def ishex (c : Byte) : Bool :=
  (byte '0' ≤ c ∧ c ≤ byte '9') ∨ (byte 'a' ≤ c ∧ c ≤ byte 'f') ∨ (byte 'A' ≤ c ∧ c ≤ byte 'F')

/-- Go `url.unhex`. -/
def unhex (c : Byte) : Nat :=
  if byte '0' ≤ c ∧ c ≤ byte '9' then c.val - (byte '0').val
  else if byte 'a' ≤ c ∧ c ≤ byte 'f' then c.val - (byte 'a').val + 10
  else if byte 'A' ≤ c ∧ c ≤ byte 'F' then c.val - (byte 'A').val + 10
  else 0

/-- Go `url.unescape` in a path mode: a `%` must be followed by two hexadecimal digits, which
it decodes to one byte (`unhex(a)<<4 | unhex(b)`); a malformed escape is an `EscapeError`
(here `none`); every other byte, `+` included, is copied. -/
def unescape : GoString → Option GoString
  | [] => some []
  | c :: s =>
    if c = byte '%' then
      match s with
      | a :: b :: rest =>
        if ishex a ∧ ishex b then
          (unescape rest).map fun t => Fin.ofNat (unhex a * 16 + unhex b) :: t
        else none
      | _ => none
    else (unescape s).map fun t => c :: t

/-- Go `url.PathUnescape`. -/
def PathUnescape (s : GoString) : Option GoString := unescape s

/-! ## regexp: the fragment of RE2 syntax that the default patterns use -/

/-- Syntax tree of a regular expression (Go `regexp/syntax.Regexp`), restricted to the
operators that the two default patterns of this program parse into. -/
inductive Regex
  | emptyMatch
  | literal (c : Byte)
  | concat (r s : Regex)
  | alternate (r s : Regex)
  | endText
  deriving DecidableEq, Repr

/-- A concatenation of the parsed items (Go `parser.concat`). -/
def Regex.mkConcat : List Regex → Regex
  | [] => .emptyMatch
  | [r] => r
  | r :: rs => .concat r (Regex.mkConcat rs)

/-- An alternation of the parsed branches (Go `parser.alternate`). -/
def Regex.mkAlternate : List Regex → Regex
  | [] => .emptyMatch
  | [r] => r
  | r :: rs => .alternate r (Regex.mkAlternate rs)

/-- One open group of the parser: the finished branches and the items of the current
branch, both newest first. -/
structure Frame where
  branches : List Regex
  items : List Regex
  deriving DecidableEq, Repr

/-- The regular expression of a finished group. -/
def Frame.close (f : Frame) : Regex :=
  Regex.mkAlternate ((Regex.mkConcat f.items.reverse :: f.branches).reverse)

/-- Go `isalnum` of regexp/syntax. -/
def isalnum (c : Byte) : Bool :=
  (byte '0' ≤ c ∧ c ≤ byte '9') ∨ (byte 'A' ≤ c ∧ c ≤ byte 'Z') ∨ (byte 'a' ≤ c ∧ c ≤ byte 'z')

/-- The shift-reduce loop of Go `syntax.Parse` (Perl flags) on the fragment: `(` opens a
group, `|` ends a branch, `)` closes a group, `$` is end of text, a backslash (byte 92)
before an ASCII punctuation byte makes it a literal, and every other ASCII byte except the operators
`* + ? . [ ^ {` is a literal.  `none` is a syntax error or a pattern outside the fragment. -/
def parseLoop : GoString → Frame → List Frame → Option Regex
  | [], top, [] => some top.close
  | [], _, _ :: _ => none
  | c :: s, top, stack =>
    if c = byte '(' then parseLoop s ⟨[], []⟩ (top :: stack)
    else if c = byte '|' then
      parseLoop s ⟨Regex.mkConcat top.items.reverse :: top.branches, []⟩ stack
    else if c = byte ')' then
      match stack with
      | [] => none
      | below :: stack => parseLoop s { below with items := top.close :: below.items } stack
    else if c = byte '$' then parseLoop s { top with items := .endText :: top.items } stack
    else if c.val = 92 then
      match s with
      | e :: s =>
        if e.val < 128 ∧ ¬ isalnum e then
          parseLoop s { top with items := .literal e :: top.items } stack
        else none
      | [] => none
    else if c = byte '*' ∨ c = byte '+' ∨ c = byte '?' ∨ c = byte '.' ∨ c = byte '['
        ∨ c = byte '^' ∨ c.val = 123 ∨ 128 ≤ c.val then none
    else parseLoop s { top with items := .literal c :: top.items } stack

/-- Go `syntax.Parse` on the fragment. -/
def syntaxParse (expr : GoString) : Option Regex := parseLoop expr ⟨[], []⟩ []

/-- Backtracking matcher: does `r` match a prefix of `s` such that the continuation `k`
accepts what is left?  The patterns of the fragment are ASCII, so matching bytes agrees with
Go's matching of UTF-8 runes. -/
def Regex.matchAt : Regex → GoString → (GoString → Bool) → Bool
  | .emptyMatch, s, k => k s
  | .literal c, s, k =>
    match s with
    | [] => false
    | d :: t => d = c && k t
  | .concat r1 r2, s, k => r1.matchAt s fun t => r2.matchAt t k
  | .alternate r1 r2, s, k => r1.matchAt s k || r2.matchAt s k
  | .endText, s, k => s.isEmpty && k s

/-- Unanchored search: `r` matches somewhere in `s`. -/
def Regex.search (r : Regex) : GoString → Bool
  | [] => r.matchAt [] fun _ => true
  | c :: s => r.matchAt (c :: s) (fun _ => true) || r.search s

/-- A compiled `*regexp.Regexp`.  The program observes a compiled pattern only through
`MatchString`, which reports whether the string contains any match of the pattern. -/
structure Regexp where
  MatchString : GoString → Bool

/-- Go `regexp.MustCompile` on the fragment.  Go panics on a pattern that does not compile;
both patterns given to it in this program do compile (`defaults_compile`). -/
def MustCompile (expr : GoString) : Regexp :=
  match syntaxParse expr with
  | some r => ⟨r.search⟩
  | none => ⟨fun _ => false⟩

/-! ## The catalogs and the default patterns (redertron.go) -/

/-- The catalog `botUserAgents`. -/
def botUserAgents : List GoString :=
  [ str "Baiduspider", str "bingbot", str "Embedly", str "facebookexternalhit",
    str "LinkedInBot", str "outbrain", str "pinterest", str "quora link preview",
    str "rogerbot", str "showyoubot", str "Slackbot", str "TelegramBot", str "Twitterbot",
    str "vkShare", str "W3C_Validator", str "WhatsApp" ]

/-- The catalog `staticFileExtensions` (`doc` is listed twice in the source). -/
def staticFileExtensions : List GoString :=
  [ str "ai", str "avi", str "css", str "dat", str "dmg", str "doc", str "doc", str "exe",
    str "flv", str "gif", str "ico", str "iso", str "jpeg", str "jpg", str "js", str "less",
    str "m4a", str "m4v", str "mov", str "mp3", str "mp4", str "mpeg", str "mpg", str "pdf",
    str "png", str "ppt", str "psd", str "rar", str "rss", str "svg", str "swf", str "tif",
    str "torrent", str "ttf", str "txt", str "wav", str "wmv", str "woff", str "xls",
    str "xml", str "zip" ]

/-- Source text of the default user-agent pattern. -/
def defaultUserAgentSource : GoString := Join botUserAgents (str "|")

/-- Source text of the default exclude pattern. -/
def defaultExcludeUrlSource : GoString :=
  str "\\.(" ++ Join staticFileExtensions (str "|") ++ str ")$"

/-- The package variable `defaultUserAgentPatern`. -/
def defaultUserAgentPatern : Regexp := MustCompile defaultUserAgentSource

/-- The package variable `defaultExcludeUrlPattern`. -/
def defaultExcludeUrlPattern : Regexp := MustCompile defaultExcludeUrlSource

/-! ## net/http: headers, requests, responses and the response writer -/

/-- Go `textproto.validHeaderFieldByte`: the bytes of an RFC 7230 token. -/
def validHeaderFieldByte (c : Byte) : Bool :=
  isalnum c ∨ c = byte '!' ∨ c = byte '#' ∨ c = byte '$' ∨ c = byte '%' ∨ c = byte '&'
    ∨ c.val = 39 ∨ c = byte '*' ∨ c = byte '+' ∨ c = byte '-' ∨ c = byte '.'
    ∨ c = byte '^' ∨ c = byte '_' ∨ c.val = 96 ∨ c = byte '|' ∨ c = byte '~'

/-- The case-fixing loop of Go `textproto.canonicalMIMEHeaderKey`: upper case for the first
letter and for a letter after a dash, lower case elsewhere (`toLower = 'a' - 'A' = 32`). -/
def canonicalCase : Bool → GoString → GoString
  | _, [] => []
  | upper, c :: s =>
    let d : Byte :=
      if upper ∧ byte 'a' ≤ c ∧ c ≤ byte 'z' then Fin.ofNat (c.val - 32)
      else if ¬ upper ∧ byte 'A' ≤ c ∧ c ≤ byte 'Z' then Fin.ofNat (c.val + 32)
      else c
    d :: canonicalCase (d = byte '-') s

/-- Go `http.CanonicalHeaderKey` (`textproto.CanonicalMIMEHeaderKey`): a key that holds a byte
that is not valid in a field name is returned unchanged, any other key is case-fixed. -/
def CanonicalHeaderKey (s : GoString) : GoString :=
  if s.all validHeaderFieldByte then canonicalCase true s else s

/-- Go `http.Header`, a `map[string][]string`, as an association list.  A map has each key
once; the order of the list is the order in which `range` visits the map, which Go leaves
unspecified, so a statement for every list is a statement for every iteration order. -/
abbrev Header := List (GoString × List GoString)

/-- The map lookup `h[key]`; a missing key gives the nil slice. -/
def Header.lookup : Header → GoString → List GoString
  | [], _ => []
  | (k, vv) :: h, key => if k = key then vv else Header.lookup h key

/-- The map store `h[key] = vv`. -/
def Header.store : Header → GoString → List GoString → Header
  | [], key, vv => [(key, vv)]
  | (k, ww) :: h, key, vv =>
    if k = key then (k, vv) :: h else (k, ww) :: Header.store h key vv

/-- Go `Header.Get`: the first value stored under the canonical form of `key`, or the empty
string. -/
def Header.Get (h : Header) (key : GoString) : GoString :=
  match h.lookup (CanonicalHeaderKey key) with
  | [] => []
  | v :: _ => v

/-- Go `Header.Add`: appends `value` to the values stored under the canonical form of
`key`. -/
def Header.Add (h : Header) (key value : GoString) : Header :=
  h.store (CanonicalHeaderKey key) (h.lookup (CanonicalHeaderKey key) ++ [value])

/-- Go `Header.Values`: the values stored under the canonical form of `key`. -/
def Header.Values (h : Header) (key : GoString) : List GoString :=
  h.lookup (CanonicalHeaderKey key)

/-- A well-formed `http.Header`: no header name occurs twice, also not in two spellings,
that is, the canonical forms of the keys are pairwise distinct.  A Go map has each key once,
and the keys of an `http.Header` "should be in canonical form, as returned by
CanonicalHeaderKey" (net/http), as those of every response that net/http reads are. -/
def Header.WF (h : Header) : Prop :=
  (h.map fun kv => CanonicalHeaderKey kv.1).Nodup

/-- A Go `error` value, by its message. -/
abbrev Error := String

/-- The fields of `*http.Request` that the handler reads; `TLS` is `r.TLS != nil`. -/
structure Request where
  Header : Header
  Host : GoString
  RequestURI : GoString
  TLS : Bool

/-- An `io.ReadCloser` body as what reading it to the end yields: the chunks that the
successive `Read` calls return, then `io.EOF` (`err = none`) or a read error. -/
structure Body where
  chunks : List GoString
  err : Option Error

/-- The fields of `*http.Response` that the handler relays. -/
structure Response where
  StatusCode : Int
  Header : Header
  Body : Body

/-- A run-time panic of the Go program: an index out of range, a method call through a nil
pointer or interface, and the panic of net/http's `checkWriteHeaderCode`
("invalid WriteHeader code"). -/
inductive Panic
  | indexOutOfRange
  | nilDereference
  | invalidWriteHeaderCode
  deriving DecidableEq, Repr

/-- An `http.ResponseWriter` as the response it has accumulated: the header map, the final
status code once one is written, the body bytes written so far, and when (if ever) the
connection stops taking writes: `failAt = some (n, e)` makes the write after `n` further
ones fail with `e`.  `interim` tells how the writer takes a 1xx status other than 101:
net/http's server sends it at once as an interim response and still awaits the final status
(`true`; the sent codes are kept in `informational`), `httptest.ResponseRecorder` takes it
as the final status (`false`). -/
structure ResponseWriter where
  header : Header
  code : Option Int
  body : GoString
  failAt : Option (Nat × Error)
  interim : Bool
  informational : List Int
  deriving DecidableEq

/-- Go `ResponseWriter.WriteHeader`.  A call after the final status was written does
nothing.  Otherwise `checkWriteHeaderCode` panics for a status below 100 or above 999; a 1xx
status other than 101 on a writer with interim responses is sent and leaves the final status
open; any other status becomes the final status. -/
def ResponseWriter.WriteHeader (w : ResponseWriter) (statusCode : Int) :
    Except Panic ResponseWriter :=
  match w.code with
  | some _ => .ok w
  | none =>
    if statusCode < 100 ∨ statusCode > 999 then .error .invalidWriteHeaderCode
    else if w.interim = true ∧ statusCode ≤ 199 ∧ statusCode ≠ 101 then
      .ok { w with informational := w.informational ++ [statusCode] }
    else .ok { w with code := some statusCode }

/-- Go `ResponseWriter.Write`: an implicit `WriteHeader(200)` when no final status was
written yet, then the bytes are written, unless the connection no longer takes writes. -/
def ResponseWriter.Write (w : ResponseWriter) (p : GoString) :
    ResponseWriter × Option Error :=
  let w1 : ResponseWriter :=
    match w.code with
    | none => { w with code := some 200 }
    | some _ => w
  match w1.failAt with
  | some (0, e) => (w1, some e)
  | some (n + 1, e) => ({ w1 with body := w1.body ++ p, failAt := some (n, e) }, none)
  | none => ({ w1 with body := w1.body ++ p }, none)

/-- The type `Options` of client.go. -/
structure Options where
  InjectShadyDom : Bool
  deriving DecidableEq, Repr

/-- What a handler call is observed to do, in order: the call of the next handler, the call
of the backend with its deadline, URL and options, the calls on the response writer, the
release of the backend's response body, an error-level log entry, and, as the last event of
a call that does not return, the panic that ends it. -/
inductive Event
  | next
  | render (timeout : Int) (u : GoString) (opt : Option Options)
  | addHeader (key value : GoString)
  | writeHeader (statusCode : Int)
  | write (p : GoString)
  | closeBody
  | logError (msg : String)
  | panics (p : Panic)
  deriving DecidableEq, Repr

/-- Go `io.Copy(w, body)`: each non-empty chunk read is written; the first failed write or
the read error ends the copy. -/
def ioCopy (w : ResponseWriter) :
    List GoString → Option Error → ResponseWriter × List Event × Option Error
  | [], rerr => (w, [], rerr)
  | p :: ps, rerr =>
    if p = [] then ioCopy w ps rerr
    else
      match (w.Write p).2 with
      | some e => ((w.Write p).1, [.write p], some e)
      | none =>
        let r := ioCopy (w.Write p).1 ps rerr
        (r.1, .write p :: r.2.1, r.2.2)

/-! ## The library environment -/

/-- The field of `*url.URL` that the program reads. -/
structure URL where
  Scheme : GoString

/-- An outbound `*http.Request`: the deadline of its context (a duration in nanoseconds),
the method and the URL string it was created from. -/
structure HTTPRequest where
  ctx : Int
  Method : GoString
  URL : GoString

/-- The library calls whose results the program cannot compute from its inputs alone, taken
as parameters: `url.Parse`, `regexp.Compile`, and `(*http.Client).Do`, the network round trip.
Every theorem below that mentions an environment holds for all of them. -/
structure Env where
  urlParse : GoString → Except Error URL
  regexpCompile : GoString → Except Error Regexp
  clientDo : HTTPRequest → Except Error Response

/-- Go `http.NewRequestWithContext` with a valid method, a non-nil context and no body: it
fails exactly when `url.Parse` rejects the URL. -/
def NewRequestWithContext (env : Env) (ctx : Int) (method url : GoString) :
    Except Error HTTPRequest :=
  match env.urlParse url with
  | .error err => .error err
  | .ok _ => .ok ⟨ctx, method, url⟩

/-! ## client.go -/

/-- The method `GetInjectShadyDom` of `*Options`; `none` is the nil pointer. -/
def Options.GetInjectShadyDom : Option Options → Bool
  | none => false
  | some o => o.InjectShadyDom

/-- The interface `RendertronClient`; the context argument is its deadline. -/
structure RendertronClient where
  Render : Int → GoString → Option Options → Except Error Response

/-- The type `ProxyRendertronClient` (its `*http.Client` is the environment's `clientDo`). -/
structure ProxyRendertronClient where
  proxy : GoString
  deriving DecidableEq, Repr

/-- The constructor `NewProxyRendertronClient`.  `proxy[len(proxy)-1]` is an index
expression, which panics when `proxy` is empty. -/
def NewProxyRendertronClient (proxy : GoString) : Except Panic ProxyRendertronClient :=
  match proxy.getLast? with
  | none => .error .indexOutOfRange
  | some c =>
    let proxy := if c ≠ byte '/' then proxy ++ str "/" else proxy
    let proxy := proxy ++ str "render/"
    .ok { proxy := proxy }

/-- The URL string `ru` that `Render` builds for the outbound request. -/
def ProxyRendertronClient.requestURL (cli : ProxyRendertronClient) (u : GoString)
    (opt : Option Options) : GoString :=
  let ru := cli.proxy ++ PathEscape u
  if Options.GetInjectShadyDom opt then ru ++ str "?wc-inject-shadydom=true" else ru

/-- The method `ProxyRendertronClient.Render`. -/
def ProxyRendertronClient.Render (env : Env) (cli : ProxyRendertronClient) (ctx : Int)
    (u : GoString) (opt : Option Options) : Except Error Response :=
  let ru := cli.requestURL u opt
  match NewRequestWithContext env ctx (str "GET") ru with
  | .error err => .error ("redertron: unable to create request: " ++ err)
  | .ok req => env.clientDo req

/-- A `*ProxyRendertronClient` as a value of the interface `RendertronClient`. -/
def ProxyRendertronClient.toClient (env : Env) (cli : ProxyRendertronClient) :
    RendertronClient :=
  ⟨fun ctx u opt => cli.Render env ctx u opt⟩

/-! ## redertron.go -/

/-- The type `Rendertron`: the configured fields and the three fields that `Provision`
fills, where `none` is nil.  `Timeout` is a `caddy.Duration`, in nanoseconds. -/
structure Rendertron where
  ExcludeUrlPattern : GoString
  UserAgentPattern : GoString
  Timeout : Int
  Proxy : GoString
  AllowedForwadedHosts : List GoString
  ForwardedHostHeader : GoString
  cli : Option RendertronClient
  excludeUrlPattern : Option Regexp
  userAgentPattern : Option Regexp

/-- Go `time.Second`, in nanoseconds. -/
def Second : Int := 1000000000

/-- The part of `Provision` after the backend is selected: the two patterns, the timeout and
the forwarded-host header.  The result is the handler as left behind and the returned
error. -/
def provisionPatterns (env : Env) (c : Rendertron) : Rendertron × Option Error :=
  let exclude : Except Error Regexp :=
    if c.ExcludeUrlPattern = [] then .ok defaultExcludeUrlPattern
    else env.regexpCompile c.ExcludeUrlPattern
  match exclude with
  | .error err => (c, some ("unable to parse exclude pattern: " ++ err))
  | .ok re =>
    let c := { c with excludeUrlPattern := some re }
    let userAgent : Except Error Regexp :=
      if c.UserAgentPattern = [] then .ok defaultUserAgentPatern
      else env.regexpCompile c.UserAgentPattern
    match userAgent with
    | .error err => (c, some ("unable to parse user agent pattern: " ++ err))
    | .ok re =>
      let c := { c with userAgentPattern := some re }
      let c := if c.Timeout = 0 then { c with Timeout := 11 * Second } else c
      let c := if c.ForwardedHostHeader = [] then
        { c with ForwardedHostHeader := str "X-Forwarded-Host" } else c
      (c, none)

/-- The method `Provision`: `.error` is a panic, `.ok (c, err)` is a return of `err` that
leaves the handler as `c`. -/
def Provision (env : Env) (c : Rendertron) : Except Panic (Rendertron × Option Error) :=
  match env.urlParse c.Proxy with
  | .error err => .ok (c, some ("specified proxy is not a valid url: " ++ err))
  | .ok pu =>
    if pu.Scheme ≠ str "chrome" then
      match NewProxyRendertronClient c.Proxy with
      | .error p => .error p
      | .ok cli => .ok (provisionPatterns env { c with cli := some (cli.toClient env) })
    else .ok (provisionPatterns env c)

/-- The method `Validate`. -/
def Validate (c : Rendertron) : Option Error :=
  if c.excludeUrlPattern.isNone then some "exclude pattern is nil"
  else if c.userAgentPattern.isNone then some "user agent pattern is nil"
  else if c.cli.isNone then
    some "render mechanishm is not selected please select it using the proxy option"
  else none

/-- A `caddyhttp.Handler`, the next handler of the chain: what its `ServeHTTP` does to the
response writer and what it returns. -/
structure Handler where
  ServeHTTP : ResponseWriter → Request → ResponseWriter × Option Error

/-- What a call of `Rendertron.ServeHTTP` leaves behind: the response writer, the returned
error and the observed events.  A call that a panic of the response writer ends has
`Event.panics` as its last event and returns nothing (`err = none`). -/
structure Served where
  w : ResponseWriter
  err : Option Error
  trace : List Event

/-- The branch `return next.ServeHTTP(w, r)`. -/
def passThrough (w : ResponseWriter) (r : Request) (next : Handler) : Served :=
  ⟨(next.ServeHTTP w r).1, (next.ServeHTTP w r).2, [.next]⟩

/-- The loop over `c.AllowedForwadedHosts` that may replace `host` by the header value. -/
def resolveHost (host hh : GoString) : List GoString → GoString
  | [] => host
  | h :: rest => if h = hh then hh else resolveHost host hh rest

/-- The inner loop of the header copy: `w.Header().Add(k, v)` for each value. -/
def addValues (w : ResponseWriter) (k : GoString) :
    List GoString → ResponseWriter × List Event
  | [] => (w, [])
  | v :: vv =>
    let r := addValues { w with header := w.header.Add k v } k vv
    (r.1, .addHeader k v :: r.2)

/-- The loop `for k, vv := range res.Header`. -/
def copyHeaders (w : ResponseWriter) : Header → ResponseWriter × List Event
  | [] => (w, [])
  | (k, vv) :: h =>
    let r1 := addValues w k vv
    let r2 := copyHeaders r1.1 h
    (r2.1, r1.2 ++ r2.2)

/-- The part of `ServeHTTP` after the request is accepted for rendering. -/
def renderAndRelay (c : Rendertron) (w : ResponseWriter) (r : Request) :
    Except Panic Served :=
  let host := r.Host
  let hh := r.Header.Get c.ForwardedHostHeader
  let host := resolveHost host hh c.AllowedForwadedHosts
  let scheme := if r.TLS = false then str "http" else str "https"
  let ru := scheme ++ str "://" ++ host ++ r.RequestURI
  match c.cli with
  | none => .error .nilDereference
  | some cli =>
    match cli.Render c.Timeout ru none with
    | .error err =>
      .ok ⟨w, some err, [.render c.Timeout ru none, .logError "unable to render page"]⟩
    | .ok res =>
      let h := copyHeaders w res.Header
      match h.1.WriteHeader res.StatusCode with
      | .error p =>
        .ok ⟨h.1, none, [Event.render c.Timeout ru none] ++ h.2
          ++ [.writeHeader res.StatusCode] ++ [.closeBody, .panics p]⟩
      | .ok w =>
        let cp := ioCopy w res.Body.chunks res.Body.err
        let called := [Event.render c.Timeout ru none] ++ h.2
          ++ [.writeHeader res.StatusCode] ++ cp.2.1
        match cp.2.2 with
        | some err =>
          .ok ⟨cp.1, some err, called ++ [.logError "error writing response to client",
            .closeBody]⟩
        | none => .ok ⟨cp.1, none, called ++ [.closeBody]⟩

/-- The method `ServeHTTP`.  `.error` is a panic before anything is observed (a method call
on a nil pattern or a nil backend); a panic of `w.WriteHeader`, after the backend was called,
is the last event of the trace, after the deferred `res.Body.Close()`. -/
def ServeHTTP (c : Rendertron) (w : ResponseWriter) (r : Request) (next : Handler) :
    Except Panic Served :=
  let ua := r.Header.Get (str "User-Agent")
  if ua = [] then .ok (passThrough w r next)
  else
    match c.userAgentPattern with
    | none => .error .nilDereference
    | some userAgentPattern =>
      if ¬ userAgentPattern.MatchString ua then .ok (passThrough w r next)
      else
        match c.excludeUrlPattern with
        | none => .error .nilDereference
        | some excludeUrlPattern =>
          if excludeUrlPattern.MatchString ua then .ok (passThrough w r next)
          else renderAndRelay c w r

/-! ## A reference environment

A concrete environment, to run the program on concrete inputs. -/

/-- Go `url.getScheme`, its loop entered at index `i` with `rest` still to read: the result
is the scheme and what follows it, or the error "missing protocol scheme". -/
def getSchemeLoop (rawURL : GoString) : Nat → GoString → Except Error (GoString × GoString)
  | _, [] => .ok ([], rawURL)
  | i, c :: rest =>
    if (byte 'a' ≤ c ∧ c ≤ byte 'z') ∨ (byte 'A' ≤ c ∧ c ≤ byte 'Z') then
      getSchemeLoop rawURL (i + 1) rest
    else if (byte '0' ≤ c ∧ c ≤ byte '9') ∨ c = byte '+' ∨ c = byte '-' ∨ c = byte '.' then
      if i = 0 then .ok ([], rawURL) else getSchemeLoop rawURL (i + 1) rest
    else if c = byte ':' then
      if i = 0 then .error "missing protocol scheme" else .ok (rawURL.take i, rest)
    else .ok ([], rawURL)

/-- Go `url.getScheme`. -/
def getScheme (rawURL : GoString) : Except Error (GoString × GoString) :=
  getSchemeLoop rawURL 0 rawURL

/-- Go `strings.ToLower` on ASCII. -/
def ToLower (s : GoString) : GoString :=
  s.map fun c => if byte 'A' ≤ c ∧ c ≤ byte 'Z' then Fin.ofNat (c.val + 32) else c

/-- Go `url.Parse` up to the scheme: the fragment is cut off, a control byte is an error, the
scheme is split off and lower-cased.  The later checks of Go (authority, escapes in the path)
can only add errors and are left out. -/
def urlParseScheme (rawURL : GoString) : Except Error URL :=
  let u := rawURL.takeWhile fun c => c ≠ byte '#'
  if u.any fun c => c.val < 32 ∨ c.val = 127 then
    .error "net/url: invalid control character in URL"
  else
    match getScheme u with
    | .error err => .error err
    | .ok (scheme, _) => .ok ⟨ToLower scheme⟩

/-- Go `regexp.Compile` on the fragment of `syntaxParse`. -/
def compileFragment (expr : GoString) : Except Error Regexp :=
  match syntaxParse expr with
  | some r => .ok ⟨r.search⟩
  | none => .error "error parsing regexp"

/-- The response of the reference backend: 200, `Content-Type: text/html`, and the body
`<html>ok</html>` read in one chunk. -/
def okResponse : Response :=
  ⟨200, [(str "Content-Type", [str "text/html"])], ⟨[str "<html>ok</html>"], none⟩⟩

/-- The reference environment: its `http.Client` answers every request with `okResponse`. -/
def refEnv : Env := ⟨urlParseScheme, compileFragment, fun _ => .ok okResponse⟩

/-- A loaded handler with only the proxy configured. -/
def demoConfig : Rendertron :=
  { ExcludeUrlPattern := [], UserAgentPattern := [], Timeout := 0,
    Proxy := str "http://localhost:3000", AllowedForwadedHosts := [],
    ForwardedHostHeader := [], cli := none, excludeUrlPattern := none,
    userAgentPattern := none }

/-- The handler that `Provision` makes of `demoConfig` in the reference environment. -/
def demoHandler : Rendertron :=
  { demoConfig with
    Timeout := 11 * Second, ForwardedHostHeader := str "X-Forwarded-Host",
    cli := some
      (ProxyRendertronClient.toClient refEnv ⟨str "http://localhost:3000/render/"⟩),
    excludeUrlPattern := some defaultExcludeUrlPattern,
    userAgentPattern := some defaultUserAgentPatern }

/-- A response writer to which nothing has been written. -/
def emptyWriter : ResponseWriter :=
  { header := [], code := none, body := [], failAt := none, interim := true,
    informational := [] }

/-- A request of `Slackbot` for `/article?id=5` on `example.com`, without TLS. -/
def slackbotRequest : Request :=
  ⟨[(str "User-Agent", [str "Slackbot"])], str "example.com", str "/article?id=5", false⟩

/-- A next handler that answers 404. -/
def notFound : Handler :=
  ⟨fun w _ => (match w.code with
    | none => { w with code := some 404 }
    | some _ => w, none)⟩

/-- The reference environment with a rendering service that answers `HTTP/1.1 000`, which
the HTTP client reads as status 0, with no header and no body. -/
def zeroStatusEnv : Env := { refEnv with clientDo := fun _ => .ok ⟨0, [], ⟨[], none⟩⟩ }

/-- The handler that `Provision` makes of `demoConfig` in `zeroStatusEnv`. -/
def zeroStatusHandler : Rendertron :=
  { demoHandler with
    cli := some
      (ProxyRendertronClient.toClient zeroStatusEnv ⟨str "http://localhost:3000/render/"⟩) }

/-- The default handler on a backend whose response has status 200 and the header name
`X-A` in two spellings. -/
def twoSpellingsHandler : Rendertron :=
  { demoHandler with
    cli := some ⟨fun _ _ _ =>
      .ok ⟨200, [(str "x-a", [str "1"]), (str "X-A", [str "2"])], ⟨[], none⟩⟩⟩ }

/-- The default handler on a backend whose response has status 100 and a body. -/
def continueStatusHandler : Rendertron :=
  { demoHandler with cli := some ⟨fun _ _ _ => .ok ⟨100, [], ⟨[str "ok"], none⟩⟩⟩ }

/-- A response writer on which the status 500 was written. -/
def failedWriter : ResponseWriter := { emptyWriter with code := some 500 }

/-- The provisioned default handler with a backend whose `Render` fails. -/
def failingHandler : Rendertron :=
  { demoHandler with cli := some ⟨fun _ _ _ => .error "connection refused"⟩ }

/-- A `Googlebot` request for an image, without TLS. -/
def googlebotRequest : Request :=
  ⟨[(str "User-Agent", [str "Googlebot"])], str "example.com", str "/logo.png", false⟩

/-- A loaded handler with the proxy left out. -/
def emptyProxyConfig : Rendertron := { demoConfig with Proxy := [] }

/-- A loaded handler with the proxy left out and an exclude pattern that does not compile. -/
def badRegexConfig : Rendertron := { demoConfig with Proxy := [], ExcludeUrlPattern := str "(" }

/-- A `Slackbot.png` request: a catalog signature followed by a static-file extension. -/
def slackbotPngRequest : Request :=
  ⟨[(str "User-Agent", [str "Slackbot.png"])], str "example.com", str "/", false⟩

/-! ## Predicates of the statements -/

/-- The handler as Caddy loads it from a configuration: the three unexported fields that
`Provision` fills are still nil. -/
def Loaded (c : Rendertron) : Prop :=
  c.cli = none ∧ c.excludeUrlPattern = none ∧ c.userAgentPattern = none

/-- A provisioned configuration: the state `c` that `Provision` left behind when it returned
nil on a loaded handler, and on which `Validate` then returned nil.  Caddy serves requests
only with such a handler. -/
def Provisioned (env : Env) (c : Rendertron) : Prop :=
  (∃ c0, Loaded c0 ∧ Provision env c0 = .ok (c, none)) ∧ Validate c = none

/-- Declarative meaning of the syntax tree: `r` matches a prefix of `s` and leaves `t`. -/
def Regex.Matches : Regex → GoString → GoString → Prop
  | .emptyMatch, s, t => t = s
  | .literal c, s, t => s = c :: t
  | .concat r1 r2, s, t => ∃ m, r1.Matches s m ∧ r2.Matches m t
  | .alternate r1 r2, s, t => r1.Matches s t ∨ r2.Matches s t
  | .endText, s, t => s = [] ∧ t = []

/-- The syntax tree of a literal string. -/
def Regex.ofLiteral (e : GoString) : Regex := Regex.mkConcat (e.map .literal)

/-- The initialised state `c` of a handler configured as `c0`: each pattern is the default
when its configured string is empty and the compilation of that string otherwise, the
timeout is 11 seconds when 0 was configured and unchanged otherwise, the forwarded-host
header is `X-Forwarded-Host` when none was configured and unchanged otherwise. -/
def Initialised (env : Env) (c0 c : Rendertron) : Prop :=
  (c0.ExcludeUrlPattern = [] → c.excludeUrlPattern = some defaultExcludeUrlPattern)
    ∧ (c0.ExcludeUrlPattern ≠ [] → ∃ re, env.regexpCompile c0.ExcludeUrlPattern = .ok re
        ∧ c.excludeUrlPattern = some re)
    ∧ (c0.UserAgentPattern = [] → c.userAgentPattern = some defaultUserAgentPatern)
    ∧ (c0.UserAgentPattern ≠ [] → ∃ re, env.regexpCompile c0.UserAgentPattern = .ok re
        ∧ c.userAgentPattern = some re)
    ∧ c.Timeout ≠ 0 ∧ (c0.Timeout = 0 → c.Timeout = 11 * Second)
    ∧ (c0.Timeout ≠ 0 → c.Timeout = c0.Timeout)
    ∧ c.ForwardedHostHeader ≠ []
    ∧ (c0.ForwardedHostHeader = [] → c.ForwardedHostHeader = str "X-Forwarded-Host")
    ∧ (c0.ForwardedHostHeader ≠ [] → c.ForwardedHostHeader = c0.ForwardedHostHeader)

/-- A configured pattern that does not compile. -/
def InvalidPattern (env : Env) (c0 : Rendertron) : Prop :=
  (c0.ExcludeUrlPattern ≠ [] ∧ ∃ e, env.regexpCompile c0.ExcludeUrlPattern = .error e)
    ∨ (c0.UserAgentPattern ≠ [] ∧ ∃ e, env.regexpCompile c0.UserAgentPattern = .error e)

/-- The decision of the first statement of `ServeHTTP`, for patterns that are not nil: the
request is passed to the next handler when the `User-Agent` value is empty, or does not match
the user-agent pattern, or matches the exclude pattern. -/
def passes (userAgentPattern excludeUrlPattern : Regexp) (r : Request) : Prop :=
  r.Header.Get (str "User-Agent") = []
    ∨ userAgentPattern.MatchString (r.Header.Get (str "User-Agent")) = false
    ∨ excludeUrlPattern.MatchString (r.Header.Get (str "User-Agent")) = true

/-- An accepted request: the patterns of `c` are not nil and the request is not passed to
the next handler. -/
def Accepted (c : Rendertron) (r : Request) : Prop :=
  ∃ uap exp, c.userAgentPattern = some uap ∧ c.excludeUrlPattern = some exp
    ∧ ¬ passes uap exp r

/-- Is the event a call of the backend's `Render`? -/
def Event.isRender : Event → Bool
  | .render _ _ _ => true
  | _ => false

/-- The calls of the backend's `Render` among the observed events. -/
def renderCalls (t : List Event) : List Event := t.filter Event.isRender

/-- The URL that `ServeHTTP` renders: scheme, resolved host and request URI. -/
def targetURL (c : Rendertron) (r : Request) : GoString :=
  (if r.TLS = false then str "http" else str "https") ++ str "://"
    ++ (if r.Header.Get c.ForwardedHostHeader ∈ c.AllowedForwadedHosts
        then r.Header.Get c.ForwardedHostHeader else r.Host)
    ++ r.RequestURI

/-! ## Lemmas: path escaping -/

theorem escaped_byte_decodes : ∀ c : Byte,
    ishex (upperhex (c.val / 16)) = true ∧ ishex (upperhex (c.val % 16)) = true
      ∧ (Fin.ofNat (unhex (upperhex (c.val / 16)) * 16 + unhex (upperhex (c.val % 16)))
          : Byte) = c := by
  decide!

theorem percent_is_escaped : ∀ c : Byte, ∀ mode : Encoding,
    shouldEscape c mode = false → c ≠ byte '%' := by
  intro c mode
  cases mode <;> revert c <;> decide!

theorem segment_byte_kept : ∀ c : Byte,
    shouldEscape c .encodePathSegment = false → c ≠ byte '/' ∧ c ≠ byte '?' := by
  decide!

theorem hex_digit_plain : ∀ c : Byte,
    upperhex (c.val / 16) ≠ byte '/' ∧ upperhex (c.val / 16) ≠ byte '?'
      ∧ upperhex (c.val % 16) ≠ byte '/' ∧ upperhex (c.val % 16) ≠ byte '?' := by
  decide!

theorem unescape_plain (c : Byte) (s : GoString) (h : c ≠ byte '%') :
    unescape (c :: s) = (unescape s).map fun t => c :: t := by
  cases s with
  | nil => simp [unescape, h]
  | cons a s =>
    cases s with
    | nil => simp [unescape, h]
    | cons b s => simp [unescape, h]

theorem unescape_escape (u : GoString) (mode : Encoding) :
    unescape (escape u mode) = some u := by
  induction u with
  | nil => rfl
  | cons c u ih =>
    by_cases h : shouldEscape c mode = true
    · obtain ⟨h1, h2, h3⟩ := escaped_byte_decodes c
      simp [escape, unescape, h, h1, h2, h3, ih]
    · have h0 : shouldEscape c mode = false := by simpa using h
      have hp := percent_is_escaped c mode h0
      rw [escape, if_neg h, unescape_plain c _ hp, ih]
      rfl

theorem escape_segment_plain (u : GoString) :
    ∀ b ∈ escape u .encodePathSegment, b ≠ byte '/' ∧ b ≠ byte '?' := by
  induction u with
  | nil => intro b hb; simp [escape] at hb
  | cons c u ih =>
    intro b hb
    by_cases h : shouldEscape c .encodePathSegment = true
    · obtain ⟨h1, h2, h3, h4⟩ := hex_digit_plain c
      simp only [escape, h, if_true, List.mem_cons] at hb
      rcases hb with rfl | rfl | rfl | hb
      · decide
      · exact ⟨h1, h2⟩
      · exact ⟨h3, h4⟩
      · exact ih b hb
    · have h0 : shouldEscape c .encodePathSegment = false := by simpa using h
      rw [escape, if_neg h] at hb
      rcases List.mem_cons.mp hb with rfl | hb
      · exact segment_byte_kept b h0
      · exact ih b hb

theorem PathEscape_injective (u v : GoString) (h : PathEscape u = PathEscape v) : u = v := by
  have hu := unescape_escape u .encodePathSegment
  have hv := unescape_escape v .encodePathSegment
  unfold PathEscape at h
  rw [h, hv] at hu
  exact (Option.some.inj hu).symm

theorem hasSuffix_slash (p : GoString) :
    HasSuffix p (str "/") = true ↔ p.getLast? = some (byte '/') := by
  have hs : str "/" = [byte '/'] := by decide
  rw [HasSuffix, hs, List.isSuffixOf_iff_suffix, List.getLast?_eq_some_iff]
  constructor <;> rintro ⟨t, ht⟩ <;> exact ⟨t, ht.symm⟩

/-! ## Lemmas: the patterns -/

theorem Regex.matchAt_iff (r : Regex) (s : GoString) (k : GoString → Bool) :
    r.matchAt s k = true ↔ ∃ t, r.Matches s t ∧ k t = true := by
  induction r generalizing s k with
  | emptyMatch => simp [Regex.matchAt, Regex.Matches]
  | literal c =>
    cases s with
    | nil => simp [Regex.matchAt, Regex.Matches]
    | cons d s =>
      simp only [Regex.matchAt, Regex.Matches, Bool.and_eq_true, decide_eq_true_eq,
        List.cons.injEq]
      constructor
      · rintro ⟨h1, h2⟩
        exact ⟨s, ⟨h1, rfl⟩, h2⟩
      · rintro ⟨t, ⟨h1, h2⟩, h3⟩
        exact ⟨h1, h2 ▸ h3⟩
  | concat r1 r2 ih1 ih2 =>
    simp only [Regex.matchAt, Regex.Matches, ih1, ih2]
    constructor
    · rintro ⟨m, h1, t, h2, h3⟩
      exact ⟨t, ⟨m, h1, h2⟩, h3⟩
    · rintro ⟨t, ⟨m, h1, h2⟩, h3⟩
      exact ⟨m, h1, t, h2, h3⟩
  | alternate r1 r2 ih1 ih2 =>
    simp only [Regex.matchAt, Regex.Matches, Bool.or_eq_true, ih1, ih2]
    constructor
    · rintro (⟨t, h1, h2⟩ | ⟨t, h1, h2⟩)
      · exact ⟨t, Or.inl h1, h2⟩
      · exact ⟨t, Or.inr h1, h2⟩
    · rintro ⟨t, h1 | h1, h2⟩
      · exact Or.inl ⟨t, h1, h2⟩
      · exact Or.inr ⟨t, h1, h2⟩
  | endText =>
    simp only [Regex.matchAt, Regex.Matches, Bool.and_eq_true, List.isEmpty_iff]
    constructor
    · rintro ⟨h1, h2⟩
      exact ⟨[], ⟨h1, rfl⟩, h1 ▸ h2⟩
    · rintro ⟨t, ⟨h1, h2⟩, h3⟩
      exact ⟨h1, by rw [h1, ← h2]; exact h3⟩

theorem Regex.search_iff (r : Regex) (s : GoString) :
    r.search s = true ↔ ∃ v, v <:+ s ∧ ∃ t, r.Matches v t := by
  induction s with
  | nil =>
    simp only [Regex.search, Regex.matchAt_iff, List.suffix_nil, and_true]
    constructor
    · rintro ⟨t, h⟩; exact ⟨[], rfl, t, h⟩
    · rintro ⟨v, rfl, t, h⟩; exact ⟨t, h⟩
  | cons c s ih =>
    simp only [Regex.search, Bool.or_eq_true, Regex.matchAt_iff, and_true, ih,
      List.suffix_cons_iff]
    constructor
    · rintro (⟨t, h⟩ | ⟨v, hv, t, h⟩)
      · exact ⟨c :: s, Or.inl rfl, t, h⟩
      · exact ⟨v, Or.inr hv, t, h⟩
    · rintro ⟨v, rfl | hv, t, h⟩
      · exact Or.inl ⟨t, h⟩
      · exact Or.inr ⟨v, hv, t, h⟩

theorem Regex.ofLiteral_matches (e s t : GoString) :
    (Regex.ofLiteral e).Matches s t ↔ s = e ++ t := by
  induction e generalizing s with
  | nil =>
    simp only [Regex.ofLiteral, List.map_nil, Regex.mkConcat, Regex.Matches, List.nil_append]
    exact eq_comm
  | cons c e ih =>
    cases e with
    | nil => simp [Regex.ofLiteral, Regex.mkConcat, Regex.Matches]
    | cons d e =>
      have h := fun m => ih m
      simp only [Regex.ofLiteral, List.map_cons, Regex.mkConcat, Regex.Matches] at h ⊢
      constructor
      · rintro ⟨m, rfl, hm⟩
        rw [(h m).mp hm]; rfl
      · intro hs
        exact ⟨d :: e ++ t, by rw [hs]; rfl, (h _).mpr rfl⟩

theorem Regex.mkAlternate_matches (rs : List Regex) (hne : rs ≠ []) (s t : GoString) :
    (Regex.mkAlternate rs).Matches s t ↔ ∃ r ∈ rs, r.Matches s t := by
  induction rs with
  | nil => exact absurd rfl hne
  | cons r rs ih =>
    cases rs with
    | nil => simp [Regex.mkAlternate]
    | cons r2 rs =>
      have h := ih (by simp)
      simp only [Regex.mkAlternate, Regex.Matches] at h ⊢
      rw [h]
      simp

theorem default_sources_parse :
    syntaxParse defaultUserAgentSource
        = some (Regex.mkAlternate (botUserAgents.map Regex.ofLiteral))
      ∧ syntaxParse defaultExcludeUrlSource
        = some (.concat (.literal (byte '.'))
            (.concat (Regex.mkAlternate (staticFileExtensions.map Regex.ofLiteral))
              .endText)) := by
  decide!

theorem suffixPattern_search (d : Byte) (exts : List GoString) (hne : exts ≠ [])
    (s : GoString) :
    (Regex.concat (.literal d)
        (.concat (Regex.mkAlternate (exts.map Regex.ofLiteral)) .endText)).search s = true
      ↔ ∃ e ∈ exts, d :: e <:+ s := by
  have hne2 : exts.map Regex.ofLiteral ≠ [] := by simpa using hne
  simp only [Regex.search_iff, Regex.Matches, Regex.mkAlternate_matches _ hne2, List.mem_map]
  constructor
  · rintro ⟨v, hv, t, m, rfl, m2, ⟨r, ⟨e, he, rfl⟩, hr⟩, rfl, rfl⟩
    rw [Regex.ofLiteral_matches, List.append_nil] at hr
    exact ⟨e, he, hr ▸ hv⟩
  · rintro ⟨e, he, hv⟩
    exact ⟨d :: e, hv, [], e, rfl, [], ⟨_, ⟨e, he, rfl⟩,
      (Regex.ofLiteral_matches e e []).mpr (List.append_nil e).symm⟩, rfl, rfl⟩

/-- The default exclude pattern matches the strings that end in a dot and a listed
extension, and no others. -/
theorem defaultExclude_matches (s : GoString) :
    defaultExcludeUrlPattern.MatchString s = true
      ↔ ∃ e ∈ staticFileExtensions, HasSuffix s (str "." ++ e) = true := by
  have hdot : ∀ e : GoString, str "." ++ e = byte '.' :: e := fun _ => rfl
  have hne : staticFileExtensions ≠ [] := by decide
  have hm : defaultExcludeUrlPattern.MatchString s
      = (Regex.concat (.literal (byte '.'))
          (.concat (Regex.mkAlternate (staticFileExtensions.map Regex.ofLiteral))
            .endText)).search s := by
    unfold defaultExcludeUrlPattern MustCompile
    rw [default_sources_parse.2]
  rw [hm, suffixPattern_search _ _ hne]
  constructor
  · rintro ⟨e, he, hv⟩
    exact ⟨e, he, by rw [HasSuffix, hdot, List.isSuffixOf_iff_suffix]; exact hv⟩
  · rintro ⟨e, he, hv⟩
    rw [HasSuffix, hdot, List.isSuffixOf_iff_suffix] at hv
    exact ⟨e, he, hv⟩

set_option maxRecDepth 100000 in
theorem catalog_rendered : ∀ s ∈ botUserAgents,
    s ≠ [] ∧ defaultUserAgentPatern.MatchString s = true
      ∧ defaultExcludeUrlPattern.MatchString s = false := by
  decide!

set_option maxRecDepth 100000 in
theorem catalog_with_extension_matches : ∀ s ∈ botUserAgents, ∀ e ∈ staticFileExtensions,
    defaultExcludeUrlPattern.MatchString (s ++ str "." ++ e) = true := by
  decide!

theorem googlebot_unmatched :
    defaultUserAgentPatern.MatchString (str "Googlebot") = false
      ∧ defaultExcludeUrlPattern.MatchString (str "Googlebot") = false := by
  decide!

/-! ## Lemmas: the handler -/

theorem resolveHost_eq (host hh : GoString) (l : List GoString) :
    resolveHost host hh l = if hh ∈ l then hh else host := by
  induction l with
  | nil => simp [resolveHost]
  | cons h l ih =>
    by_cases e : h = hh
    · simp [resolveHost, e]
    · have e2 : ¬ hh = h := fun x => e x.symm
      simp [resolveHost, e, e2, ih]

theorem ServeHTTP_passes (c : Rendertron) (w : ResponseWriter) (r : Request) (next : Handler)
    (uap exp : Regexp) (hu : c.userAgentPattern = some uap)
    (he : c.excludeUrlPattern = some exp) (h : passes uap exp r) :
    ServeHTTP c w r next = .ok (passThrough w r next) := by
  unfold ServeHTTP
  simp only [hu, he]
  by_cases h1 : r.Header.Get (str "User-Agent") = []
  · simp [h1]
  · by_cases h2 : uap.MatchString (r.Header.Get (str "User-Agent")) = true
    · have h3 : exp.MatchString (r.Header.Get (str "User-Agent")) = true := by
        rcases h with h | h | h
        · exact absurd h h1
        · rw [h2] at h; exact absurd h (by decide)
        · exact h
      simp [h1, h2, h3]
    · simp [h1, h2]

theorem ServeHTTP_accepted (c : Rendertron) (w : ResponseWriter) (r : Request)
    (next : Handler) (h : Accepted c r) : ServeHTTP c w r next = renderAndRelay c w r := by
  obtain ⟨uap, exp, hu, he, hn⟩ := h
  unfold passes at hn
  have h1 : ¬ r.Header.Get (str "User-Agent") = [] := fun x => hn (Or.inl x)
  have h2 : uap.MatchString (r.Header.Get (str "User-Agent")) = true := by
    cases hm : uap.MatchString (r.Header.Get (str "User-Agent")) with
    | true => rfl
    | false => exact absurd (Or.inr (Or.inl hm)) hn
  have h3 : ¬ exp.MatchString (r.Header.Get (str "User-Agent")) = true :=
    fun x => hn (Or.inr (Or.inr x))
  unfold ServeHTTP
  simp [hu, he, h1, h2, h3]

theorem renderAndRelay_error (c : Rendertron) (w : ResponseWriter) (r : Request)
    (cli : RendertronClient) (e : Error) (hcli : c.cli = some cli)
    (hres : cli.Render c.Timeout (targetURL c r) none = .error e) :
    renderAndRelay c w r
      = .ok ⟨w, some e, [.render c.Timeout (targetURL c r) none,
          .logError "unable to render page"]⟩ := by
  unfold targetURL at hres
  unfold renderAndRelay
  simp only [hcli, resolveHost_eq, hres]
  rfl

/-- The relay after a successful `Render` when `WriteHeader` panics. -/
theorem renderAndRelay_panic (c : Rendertron) (w : ResponseWriter) (r : Request)
    (cli : RendertronClient) (res : Response) (p : Panic) (hcli : c.cli = some cli)
    (hres : cli.Render c.Timeout (targetURL c r) none = .ok res)
    (hwh : (copyHeaders w res.Header).1.WriteHeader res.StatusCode = .error p) :
    renderAndRelay c w r
      = .ok ⟨(copyHeaders w res.Header).1, none,
          [Event.render c.Timeout (targetURL c r) none] ++ (copyHeaders w res.Header).2
            ++ [.writeHeader res.StatusCode] ++ [.closeBody, .panics p]⟩ := by
  unfold targetURL at hres
  unfold renderAndRelay
  simp only [hcli, resolveHost_eq, hres, hwh]
  rfl

/-- The events and final state of a relay after a successful `Render` and `WriteHeader`. -/
theorem renderAndRelay_ok (c : Rendertron) (w w1 : ResponseWriter) (r : Request)
    (cli : RendertronClient) (res : Response) (hcli : c.cli = some cli)
    (hres : cli.Render c.Timeout (targetURL c r) none = .ok res)
    (hwh : (copyHeaders w res.Header).1.WriteHeader res.StatusCode = .ok w1) :
    ∃ sv, renderAndRelay c w r = .ok sv
      ∧ sv.w = (ioCopy w1 res.Body.chunks res.Body.err).1
      ∧ sv.err = (ioCopy w1 res.Body.chunks res.Body.err).2.2
      ∧ sv.trace = [Event.render c.Timeout (targetURL c r) none]
          ++ (copyHeaders w res.Header).2 ++ [.writeHeader res.StatusCode]
          ++ (ioCopy w1 res.Body.chunks res.Body.err).2.1
          ++ (match (ioCopy w1 res.Body.chunks res.Body.err).2.2 with
              | some _ => [.logError "error writing response to client", .closeBody]
              | none => [.closeBody]) := by
  unfold targetURL at hres
  unfold renderAndRelay
  simp only [hcli, resolveHost_eq, hres, hwh]
  cases hcp : (ioCopy w1 res.Body.chunks res.Body.err).2.2 with
  | none => exact ⟨_, rfl, rfl, rfl, rfl⟩
  | some err => exact ⟨_, rfl, rfl, rfl, rfl⟩

theorem addValues_events (w : ResponseWriter) (k : GoString) (vv : List GoString) :
    (addValues w k vv).2 = vv.map (Event.addHeader k) := by
  induction vv generalizing w with
  | nil => rfl
  | cons v vv ih => simp [addValues, ih]

theorem copyHeaders_events (w : ResponseWriter) (h : Header) :
    (copyHeaders w h).2 = h.flatMap fun kv => kv.2.map (Event.addHeader kv.1) := by
  induction h generalizing w with
  | nil => rfl
  | cons kv h ih =>
    obtain ⟨k, vv⟩ := kv
    simp [copyHeaders, addValues_events, ih]

theorem ioCopy_events (w : ResponseWriter) (cs : List GoString) (rerr : Option Error) :
    ∀ e ∈ (ioCopy w cs rerr).2.1, ∃ p, e = Event.write p := by
  induction cs generalizing w with
  | nil => intro e he; simp [ioCopy] at he
  | cons p cs ih =>
    intro e he
    unfold ioCopy at he
    by_cases hp : p = []
    · rw [if_pos hp] at he
      exact ih w e he
    · rw [if_neg hp] at he
      cases hw : (w.Write p).2 with
      | some x =>
        rw [hw] at he
        simp only [List.mem_singleton] at he
        exact ⟨p, he⟩
      | none =>
        rw [hw] at he
        simp only [List.mem_cons] at he
        rcases he with he | he
        · exact ⟨p, he⟩
        · exact ih _ e he

theorem Header.lookup_store (h : Header) (k k2 : GoString) (vv : List GoString) :
    (h.store k vv).lookup k2 = if k2 = k then vv else h.lookup k2 := by
  induction h with
  | nil =>
    by_cases e : k2 = k
    · simp [Header.store, Header.lookup, e]
    · have e2 : ¬ k = k2 := fun x => e x.symm
      simp [Header.store, Header.lookup, e, e2]
  | cons a h ih =>
    obtain ⟨a, ww⟩ := a
    by_cases e1 : a = k
    · subst e1
      by_cases e : k2 = a
      · simp [Header.store, Header.lookup, e]
      · have e2 : ¬ a = k2 := fun x => e x.symm
        simp [Header.store, Header.lookup, e, e2]
    · by_cases e : a = k2
      · subst e
        simp [Header.store, Header.lookup, e1]
      · simp [Header.store, Header.lookup, e1, e, ih]

theorem addValues_state (w : ResponseWriter) (k : GoString) (vv : List GoString) :
    (addValues w k vv).1 = { w with header := (addValues w k vv).1.header }
      ∧ ∀ k2, (addValues w k vv).1.header.lookup k2
          = if k2 = CanonicalHeaderKey k then w.header.lookup k2 ++ vv
            else w.header.lookup k2 := by
  induction vv generalizing w with
  | nil => simp [addValues]
  | cons v vv ih =>
    obtain ⟨h1, h4⟩ := ih { w with header := w.header.Add k v }
    refine ⟨?_, ?_⟩
    · simp only [addValues]
      rw [h1]
    · intro k2
      have h5 := h4 k2
      simp only [addValues]
      rw [h5]
      simp only [Header.Add, Header.lookup_store]
      by_cases e : k2 = CanonicalHeaderKey k
      · subst e; simp
      · simp [e]

theorem Header.lookup_of_mem (h : Header) (k : GoString) (vv : List GoString)
    (hnd : (h.map Prod.fst).Nodup) (hm : (k, vv) ∈ h) : h.lookup k = vv := by
  induction h with
  | nil => cases hm
  | cons a h ih =>
    obtain ⟨a, ww⟩ := a
    simp only [List.map_cons, List.nodup_cons] at hnd
    rcases List.mem_cons.mp hm with he | hm2
    · cases he
      simp [Header.lookup]
    · have hne : ¬ a = k := by
        intro e
        subst e
        exact hnd.1 (List.mem_map.mpr ⟨(a, vv), hm2, rfl⟩)
      simp [Header.lookup, hne, ih hnd.2 hm2]

theorem Header.WF.keys_nodup (h : Header) (hwf : h.WF) : (h.map Prod.fst).Nodup := by
  unfold Header.WF at hwf
  have hm : (h.map fun kv => CanonicalHeaderKey kv.1)
      = (h.map Prod.fst).map CanonicalHeaderKey := by
    rw [List.map_map]; rfl
  rw [hm] at hwf
  exact List.Nodup.of_map _ hwf

theorem copyHeaders_state (w : ResponseWriter) (h : Header) (hwf : h.WF) :
    (copyHeaders w h).1 = { w with header := (copyHeaders w h).1.header }
      ∧ ∀ k2, ((∀ kv ∈ h, CanonicalHeaderKey kv.1 ≠ k2) →
            (copyHeaders w h).1.header.lookup k2 = w.header.lookup k2)
          ∧ (∀ kv ∈ h, CanonicalHeaderKey kv.1 = k2 →
            (copyHeaders w h).1.header.lookup k2 = w.header.lookup k2 ++ kv.2) := by
  induction h generalizing w with
  | nil => simp [copyHeaders]
  | cons a h ih =>
    obtain ⟨k, vv⟩ := a
    unfold Header.WF at hwf
    simp only [List.map_cons, List.nodup_cons, List.mem_map, not_exists, not_and] at hwf
    obtain ⟨hfirst, hrest⟩ := hwf
    obtain ⟨a1, a4⟩ := addValues_state w k vv
    obtain ⟨b1, b4⟩ := ih (addValues w k vv).1 hrest
    refine ⟨?_, ?_⟩
    · simp only [copyHeaders]
      rw [b1, a1]
    · intro k2
      constructor
      · intro hall
        have hk : ¬ k2 = CanonicalHeaderKey k := fun e => hall (k, vv) (by simp) e.symm
        have hr := (b4 k2).1 fun kv hkv => hall kv (List.mem_cons_of_mem _ hkv)
        simp only [copyHeaders]
        rw [hr, a4 k2, if_neg hk]
      · intro kv hkv hc
        rcases List.mem_cons.mp hkv with he | hin
        · subst he
          have hr := (b4 k2).1 fun kv2 hkv2 e => hfirst kv2 hkv2 (e.trans hc.symm)
          simp only [copyHeaders]
          rw [hr, a4 k2, if_pos hc.symm]
        · have hk : ¬ k2 = CanonicalHeaderKey k := fun e => hfirst kv hin (hc.trans e)
          have hr := (b4 k2).2 kv hin hc
          simp only [copyHeaders]
          rw [hr, a4 k2, if_neg hk]

theorem ioCopy_accepting (w : ResponseWriter) (cs : List GoString) (rerr : Option Error)
    (s : Int) (hw : w.failAt = none) (hc : w.code = some s) :
    ioCopy w cs rerr
      = ({ w with body := w.body ++ cs.flatten },
          (cs.filter fun p => p ≠ []).map Event.write, rerr) := by
  induction cs generalizing w with
  | nil => simp [ioCopy]
  | cons p cs ih =>
    by_cases hp : p = []
    · subst hp
      simp [ioCopy, ih w hw hc]
    · have hwr : w.Write p = ({ w with body := w.body ++ p }, none) := by
        simp [ResponseWriter.Write, hw, hc]
      rw [ioCopy, if_neg hp, hwr]
      simp [ih { w with body := w.body ++ p } hw hc, hp]

/-! ## The outbound request of the proxy client -/

/-- C5: for a non-empty proxy base `p`, `NewProxyRendertronClient p` succeeds, and `Render` on
that client issues its GET (method `GET`, through `NewRequestWithContext` and then the HTTP
client) for the URL `B ++ PathEscape u ++ F`, where `B` is `p ++ "render/"` when `p` ends in
`/` and `p ++ "/render/"` otherwise, and `F` is `?wc-inject-shadydom=true` exactly when `opt`
is a non-nil `Options` with `InjectShadyDom` true and is empty otherwise; the escaped target
holds neither `/` nor `?`, so it stays one path segment. -/
theorem C5_render_requests_escaped_target (env : Env) (p u : GoString)
    (opt : Option Options) (ctx : Int) (hp : p ≠ []) :
    ∃ cli, NewProxyRendertronClient p = .ok cli
      ∧ cli.requestURL u opt
          = (if HasSuffix p (str "/") = true then p ++ str "render/"
              else p ++ str "/render/")
            ++ PathEscape u
            ++ (if opt = some ⟨true⟩ then str "?wc-inject-shadydom=true" else [])
      ∧ cli.Render env ctx u opt
          = (match env.urlParse (cli.requestURL u opt) with
            | .error err => .error ("redertron: unable to create request: " ++ err)
            | .ok _ => env.clientDo ⟨ctx, str "GET", cli.requestURL u opt⟩)
      ∧ byte '/' ∉ PathEscape u ∧ byte '?' ∉ PathEscape u := by
  obtain ⟨c, hc⟩ : ∃ c, p.getLast? = some c := by
    cases h : p.getLast? with
    | none => exact absurd (List.getLast?_eq_none_iff.mp h) hp
    | some c => exact ⟨c, rfl⟩
  have hflag : (if Options.GetInjectShadyDom opt = true
        then str "?wc-inject-shadydom=true" else [])
      = (if opt = some ⟨true⟩ then str "?wc-inject-shadydom=true" else ([] : GoString)) := by
    rcases opt with _ | ⟨_ | _⟩ <;> simp [Options.GetInjectShadyDom]
  have hurl : ∀ cli : ProxyRendertronClient, cli.requestURL u opt
      = cli.proxy ++ PathEscape u
        ++ (if Options.GetInjectShadyDom opt = true
            then str "?wc-inject-shadydom=true" else []) := by
    intro cli
    unfold ProxyRendertronClient.requestURL
    by_cases h : Options.GetInjectShadyDom opt = true <;> simp [h]
  have hrender : ∀ cli : ProxyRendertronClient, cli.Render env ctx u opt
      = (match env.urlParse (cli.requestURL u opt) with
        | .error err => .error ("redertron: unable to create request: " ++ err)
        | .ok _ => env.clientDo ⟨ctx, str "GET", cli.requestURL u opt⟩) := by
    intro cli
    unfold ProxyRendertronClient.Render NewRequestWithContext
    dsimp only
    cases env.urlParse (cli.requestURL u opt) <;> rfl
  have hplain : byte '/' ∉ PathEscape u ∧ byte '?' ∉ PathEscape u :=
    ⟨fun h => (escape_segment_plain u _ h).1 rfl, fun h => (escape_segment_plain u _ h).2 rfl⟩
  by_cases hs : c = byte '/'
  · refine ⟨⟨p ++ str "render/"⟩, ?_, ?_, hrender _, hplain⟩
    · simp [NewProxyRendertronClient, hc, hs]
    · rw [hurl, hflag, if_pos ((hasSuffix_slash p).mpr (hs ▸ hc))]
  · refine ⟨⟨p ++ str "/" ++ str "render/"⟩, ?_, ?_, hrender _, hplain⟩
    · simp [NewProxyRendertronClient, hc, hs]
    · have hns : ¬ HasSuffix p (str "/") = true := by
        intro h
        rw [hasSuffix_slash, hc] at h
        exact hs (Option.some.inj h)
      have hb : p ++ str "/" ++ str "render/" = p ++ str "/render/" := by
        rw [List.append_assoc]; rfl
      rw [hurl, hflag, if_neg hns, hb]

/-- The proxy base `http://localhost:3000`, the target `http://example.com/article?id=5` and
the shadow-DOM option give the outbound URL
`http://localhost:3000/render/http:%2F%2Fexample.com%2Farticle%3Fid=5?wc-inject-shadydom=true`. -/
theorem C5_witness :
    ∃ cli, NewProxyRendertronClient (str "http://localhost:3000") = .ok cli
      ∧ cli.requestURL (str "http://example.com/article?id=5") (some ⟨true⟩)
          = str ("http://localhost:3000/render/"
              ++ "http:%2F%2Fexample.com%2Farticle%3Fid=5?wc-inject-shadydom=true") := by
  obtain ⟨cli, h1, h2, _⟩ := C5_render_requests_escaped_target refEnv
    (str "http://localhost:3000") (str "http://example.com/article?id=5") (some ⟨true⟩) 0
    (by decide)
  exact ⟨cli, h1, h2.trans (by decide!)⟩

/-- C6: decoding the escaped path segment with `url.PathUnescape` gives back the target URL,
whatever bytes it holds, and for a fixed client (proxy base) and fixed options two targets
with the same outbound request URL are equal. -/
theorem C6_escape_roundtrip_injective (u : GoString) :
    PathUnescape (PathEscape u) = some u
      ∧ ∀ (cli : ProxyRendertronClient) (opt : Option Options) (v : GoString),
          cli.requestURL u opt = cli.requestURL v opt → u = v := by
  refine ⟨unescape_escape u _, ?_⟩
  intro cli opt v h
  unfold ProxyRendertronClient.requestURL at h
  by_cases hf : Options.GetInjectShadyDom opt = true
  · simp only [hf, if_true] at h
    exact PathEscape_injective u v (List.append_cancel_left (List.append_cancel_right h))
  · simp only [hf] at h
    exact PathEscape_injective u v (List.append_cancel_left h)

/-! ## The handler -/

theorem demo_provision : Provision refEnv demoConfig = .ok (demoHandler, none) := by
  rfl

theorem demo_provisioned : Provisioned refEnv demoHandler :=
  ⟨⟨demoConfig, ⟨rfl, rfl, rfl⟩, demo_provision⟩, rfl⟩

theorem slackbot_accepted : Accepted demoHandler slackbotRequest := by
  refine ⟨defaultUserAgentPatern, defaultExcludeUrlPattern, rfl, rfl, ?_⟩
  unfold passes
  decide!

theorem validated_fields (c : Rendertron) (hv : Validate c = none) :
    ∃ uap exp cli, c.userAgentPattern = some uap ∧ c.excludeUrlPattern = some exp
      ∧ c.cli = some cli := by
  unfold Validate at hv
  cases h1 : c.excludeUrlPattern with
  | none => simp [h1] at hv
  | some exp =>
    cases h2 : c.userAgentPattern with
    | none => simp [h1, h2] at hv
    | some uap =>
      cases h3 : c.cli with
      | none => simp [h1, h2, h3] at hv
      | some cli => exact ⟨uap, exp, cli, rfl, rfl, rfl⟩

/-- What an accepted request does on a handler with a backend: one `Render` call, for the
target URL, and no call of the next handler. -/
theorem accepted_renders_once (c : Rendertron) (w : ResponseWriter) (r : Request)
    (next : Handler) (cli : RendertronClient) (ha : Accepted c r) (hcli : c.cli = some cli) :
    ∃ sv, ServeHTTP c w r next = .ok sv
      ∧ renderCalls sv.trace = [.render c.Timeout (targetURL c r) none]
      ∧ Event.next ∉ sv.trace := by
  rw [ServeHTTP_accepted c w r next ha]
  cases hres : cli.Render c.Timeout (targetURL c r) none with
  | error e =>
    rw [renderAndRelay_error c w r cli e hcli hres]
    exact ⟨_, rfl, by simp [renderCalls, Event.isRender], by simp⟩
  | ok res =>
    have hcopy : ∀ e ∈ (copyHeaders w res.Header).2, e.isRender = false ∧ e ≠ Event.next := by
      intro e he
      simp only [copyHeaders_events, List.mem_flatMap, List.mem_map] at he
      obtain ⟨kv, -, v, -, rfl⟩ := he
      simp [Event.isRender]
    have key : ∀ rest : List Event, (∀ e ∈ rest, e.isRender = false ∧ e ≠ Event.next) →
        renderCalls (Event.render c.Timeout (targetURL c r) none :: rest)
            = [.render c.Timeout (targetURL c r) none]
          ∧ Event.next ∉ Event.render c.Timeout (targetURL c r) none :: rest := by
      intro rest hrest
      constructor
      · rw [renderCalls, List.filter_cons]
        simp only [Event.isRender, if_true]
        congr 1
        rw [List.filter_eq_nil_iff]
        intro e he
        simp [(hrest e he).1]
      · intro hn
        rcases List.mem_cons.mp hn with hn | hn
        · cases hn
        · exact (hrest Event.next hn).2 rfl
    cases hwh : (copyHeaders w res.Header).1.WriteHeader res.StatusCode with
    | error p =>
      rw [renderAndRelay_panic c w r cli res p hcli hres hwh]
      refine ⟨_, rfl, ?_⟩
      have hrest : ∀ e ∈ (copyHeaders w res.Header).2 ++ [Event.writeHeader res.StatusCode]
          ++ [Event.closeBody, Event.panics p], e.isRender = false ∧ e ≠ Event.next := by
        intro e he
        simp only [List.mem_append, List.mem_singleton, List.mem_cons, List.mem_nil_iff,
          or_false] at he
        rcases he with (he | rfl) | rfl | rfl
        · exact hcopy e he
        · simp [Event.isRender]
        · simp [Event.isRender]
        · simp [Event.isRender]
      have h5 := key _ hrest
      simpa using h5
    | ok w1 =>
      obtain ⟨sv, h1, -, -, h4⟩ := renderAndRelay_ok c w w1 r cli res hcli hres hwh
      have hio := ioCopy_events w1 res.Body.chunks res.Body.err
      have hrest : ∀ e ∈ (copyHeaders w res.Header).2 ++ [Event.writeHeader res.StatusCode]
          ++ (ioCopy w1 res.Body.chunks res.Body.err).2.1
          ++ (match (ioCopy w1 res.Body.chunks res.Body.err).2.2 with
              | some _ => [Event.logError "error writing response to client", Event.closeBody]
              | none => [Event.closeBody]), e.isRender = false ∧ e ≠ Event.next := by
        intro e he
        simp only [List.mem_append, List.mem_singleton] at he
        rcases he with ((he | rfl) | he) | he
        · exact hcopy e he
        · simp [Event.isRender]
        · obtain ⟨p, rfl⟩ := hio e he
          simp [Event.isRender]
        · split at he <;> simp at he <;> rcases he with rfl | rfl <;> simp [Event.isRender]
      have h5 := key _ hrest
      refine ⟨sv, h1, ?_⟩
      rw [h4]
      simpa using h5

/-- C1: on a provisioned configuration (one that `Provision` and `Validate` accepted, so
both patterns and the backend are set) `ServeHTTP` calls the next handler
if and only if the `User-Agent` value is empty, or does not match `userAgentPattern`, or
matches `excludeUrlPattern` (`passes`, which tests the exclude pattern on the user agent).
When it does, the outcome is exactly what the next handler did and returned, and that call is
the only event (no backend call, no write of its own).  In every other case `Render` is
called exactly once and the next handler is not called. -/
theorem C1_delegates_iff_not_eligible (env : Env) (c : Rendertron) (w : ResponseWriter)
    (r : Request) (next : Handler) (hp : Provisioned env c) :
    ∃ uap exp sv, c.userAgentPattern = some uap ∧ c.excludeUrlPattern = some exp
      ∧ ServeHTTP c w r next = .ok sv
      ∧ (Event.next ∈ sv.trace ↔ passes uap exp r)
      ∧ (passes uap exp r →
          sv = ⟨(next.ServeHTTP w r).1, (next.ServeHTTP w r).2, [.next]⟩)
      ∧ (¬ passes uap exp r →
          (renderCalls sv.trace).length = 1 ∧ Event.next ∉ sv.trace) := by
  obtain ⟨uap, exp, cli, hu, he, hcli⟩ := validated_fields c hp.2
  by_cases h : passes uap exp r
  · refine ⟨uap, exp, passThrough w r next, hu, he,
      ServeHTTP_passes c w r next uap exp hu he h, ?_, fun _ => rfl, fun hn => absurd h hn⟩
    simp [passThrough, h]
  · obtain ⟨sv, h1, h2, h3⟩ :=
      accepted_renders_once c w r next cli ⟨uap, exp, hu, he, h⟩ hcli
    refine ⟨uap, exp, sv, hu, he, h1, ?_, fun hy => absurd hy h, fun _ => ⟨?_, h3⟩⟩
    · exact ⟨fun hn => absurd hn h3, fun hy => absurd hy h⟩
    · rw [h2]; rfl

/-- The provisioned default handler renders the `Slackbot` request: the next handler is not
called. -/
theorem C1_witness :
    ∃ sv, ServeHTTP demoHandler emptyWriter slackbotRequest notFound = .ok sv
      ∧ (renderCalls sv.trace).length = 1 ∧ Event.next ∉ sv.trace := by
  obtain ⟨uap, exp, sv, hu, he, h1, -, -, h3⟩ :=
    C1_delegates_iff_not_eligible refEnv demoHandler emptyWriter slackbotRequest notFound
      demo_provisioned
  obtain ⟨uap2, exp2, hu2, he2, hn⟩ := slackbot_accepted
  rw [hu] at hu2
  rw [he] at he2
  cases hu2
  cases he2
  exact ⟨sv, h1, h3 hn⟩

/-- C2: for an accepted request on a handler with a backend, the one `Render` call of
`ServeHTTP` gets the URL `scheme ++ "://" ++ H ++ RequestURI`, with `scheme` `http` when
the request has no TLS state and `https` otherwise, and `H` the value of the configured
forwarded-host header (`r.Header.Get`) when it equals an entry of `AllowedForwadedHosts`
and the request's `Host` otherwise; with an empty list `H` is the request's `Host`.  For
the list `a.example`, `b.example` the header value `a.example` is taken and `c.example`
is not. -/
theorem C2_render_gets_resolved_url (c : Rendertron) (w : ResponseWriter) (r : Request)
    (next : Handler) (cli : RendertronClient) (ha : Accepted c r)
    (hcli : c.cli = some cli) :
    (∃ sv, ServeHTTP c w r next = .ok sv
      ∧ renderCalls sv.trace = [.render c.Timeout
          ((if r.TLS = false then str "http" else str "https") ++ str "://"
            ++ (if r.Header.Get c.ForwardedHostHeader ∈ c.AllowedForwadedHosts
                then r.Header.Get c.ForwardedHostHeader else r.Host)
            ++ r.RequestURI) none])
      ∧ (c.AllowedForwadedHosts = [] →
          (if r.Header.Get c.ForwardedHostHeader ∈ c.AllowedForwadedHosts
            then r.Header.Get c.ForwardedHostHeader else r.Host) = r.Host)
      ∧ resolveHost r.Host (str "a.example") [str "a.example", str "b.example"]
          = str "a.example"
      ∧ resolveHost r.Host (str "c.example") [str "a.example", str "b.example"]
          = r.Host := by
  obtain ⟨sv, h1, h2, -⟩ := accepted_renders_once c w r next cli ha hcli
  refine ⟨⟨sv, h1, h2⟩, ?_, ?_, ?_⟩
  · intro h; simp [h]
  · rw [resolveHost_eq, if_pos (by decide!)]
  · rw [resolveHost_eq, if_neg (by decide!)]

/-- The `Slackbot` request for `/article?id=5` on `example.com` without TLS is rendered
from `http://example.com/article?id=5`. -/
theorem C2_witness :
    ∃ sv, ServeHTTP demoHandler emptyWriter slackbotRequest notFound = .ok sv
      ∧ renderCalls sv.trace
          = [.render (11 * Second) (str "http://example.com/article?id=5") none] := by
  obtain ⟨⟨sv, h1, h2⟩, -⟩ := C2_render_gets_resolved_url demoHandler emptyWriter
    slackbotRequest notFound _ slackbot_accepted rfl
  exact ⟨sv, h1, h2.trans (by decide!)⟩

/-- C4: when the backend's `Render` returns the error `e` for an accepted request,
`ServeHTTP` returns `e` and leaves the response writer as it was; the only events are the
one `Render` call and a log entry, so there is no second attempt, no call of the next
handler, and no header, status or body write. -/
theorem C4_backend_error_propagates (c : Rendertron) (w : ResponseWriter) (r : Request)
    (next : Handler) (cli : RendertronClient) (e : Error) (ha : Accepted c r)
    (hcli : c.cli = some cli)
    (hres : cli.Render c.Timeout (targetURL c r) none = .error e) :
    ServeHTTP c w r next
      = .ok ⟨w, some e, [.render c.Timeout (targetURL c r) none,
          .logError "unable to render page"]⟩ := by
  rw [ServeHTTP_accepted c w r next ha]
  exact renderAndRelay_error c w r cli e hcli hres

theorem slackbot_accepted_failing : Accepted failingHandler slackbotRequest := by
  refine ⟨defaultUserAgentPatern, defaultExcludeUrlPattern, rfl, rfl, ?_⟩
  unfold passes
  decide!

/-- A backend that refuses the connection: the `Slackbot` request fails with that error and
the writer stays empty. -/
theorem C4_witness :
    ServeHTTP failingHandler emptyWriter slackbotRequest notFound
      = .ok ⟨emptyWriter, some "connection refused",
          [.render failingHandler.Timeout (targetURL failingHandler slackbotRequest) none,
            .logError "unable to render page"]⟩ :=
  C4_backend_error_propagates failingHandler emptyWriter slackbotRequest notFound _
    "connection refused" slackbot_accepted_failing rfl rfl

theorem slackbot_accepted_default (c : Rendertron)
    (hu : c.userAgentPattern = some defaultUserAgentPatern)
    (he : c.excludeUrlPattern = some defaultExcludeUrlPattern) :
    Accepted c slackbotRequest := by
  refine ⟨defaultUserAgentPatern, defaultExcludeUrlPattern, hu, he, ?_⟩
  unfold passes
  decide!

/-- C3, as it fails.  The request is accepted, `Render` succeeds and the writer takes every
write in each of the four runs, but: (1) on the handler provisioned in `zeroStatusEnv`,
where the backend status is 0 (a reply `HTTP/1.1 000`), `w.WriteHeader` panics, so
`ServeHTTP` does not return nil and no status is written;
(2) with the header name `X-A` in the two spellings `x-a` and `X-A` the writer ends with
both values for `x-a`, not with `H["x-a"]` alone; (3) on a writer that already has the
status 500 the status stays 500, not the backend's 200; (4) with the backend status 100 a
writer with interim responses ends with the final status 200. -/
theorem C3_counterexample :
    Provision zeroStatusEnv demoConfig = .ok (zeroStatusHandler, none)
      ∧ (ServeHTTP zeroStatusHandler emptyWriter slackbotRequest notFound
        = .ok ⟨emptyWriter, none,
            [.render (11 * Second) (str "http://example.com/article?id=5") none,
              .writeHeader 0, .closeBody, .panics .invalidWriteHeaderCode]⟩)
      ∧ (∃ sv, ServeHTTP twoSpellingsHandler emptyWriter slackbotRequest notFound = .ok sv
          ∧ sv.w.header.Values (str "x-a") = [str "1", str "2"]
          ∧ emptyWriter.header.Values (str "x-a")
              ++ Header.lookup [(str "x-a", [str "1"]), (str "X-A", [str "2"])] (str "x-a")
            = [str "1"])
      ∧ (∃ sv, ServeHTTP demoHandler failedWriter slackbotRequest notFound = .ok sv
          ∧ sv.err = none ∧ sv.w.code = some 500)
      ∧ (∃ sv, ServeHTTP continueStatusHandler emptyWriter slackbotRequest notFound = .ok sv
          ∧ sv.err = none ∧ sv.w.code = some 200 ∧ sv.w.informational = [100]) := by
  refine ⟨rfl, ?_, ?_, ?_, ?_⟩
  · rw [ServeHTTP_accepted _ _ _ _ (slackbot_accepted_default zeroStatusHandler rfl rfl)]
    rfl
  · rw [ServeHTTP_accepted _ _ _ _ (slackbot_accepted_default twoSpellingsHandler rfl rfl)]
    exact ⟨_, rfl, by decide!, by decide!⟩
  · rw [ServeHTTP_accepted _ _ _ _ (slackbot_accepted_default demoHandler rfl rfl)]
    exact ⟨_, rfl, rfl, rfl⟩
  · rw [ServeHTTP_accepted _ _ _ _
      (slackbot_accepted_default continueStatusHandler rfl rfl)]
    exact ⟨_, rfl, rfl, rfl, rfl⟩

/-- C3, amended: when the backend's `Render` succeeds for an accepted request with a status
`s` from 100 to 999 that the writer takes as final (on a writer with interim responses:
101 or 200 and above), a header map `H` that has each header name once and a body that
reads as `b` without error, and the writer takes every write and has no status written
yet, then `ServeHTTP` returns nil and the writer ends with status `s`, with `b` appended
to its body (so exactly `b` on a writer whose body was empty), and for every key `k` of `H`
with its earlier values for `k` (`Header.Values`) followed by the values `H[k]` in their
order.  The events are, in this order: the `Render` call, the header additions, the
status write, the body writes, the release of the body. -/
theorem C3_relays_response (c : Rendertron) (w : ResponseWriter) (r : Request)
    (next : Handler) (cli : RendertronClient) (res : Response) (ha : Accepted c r)
    (hcli : c.cli = some cli)
    (hres : cli.Render c.Timeout (targetURL c r) none = .ok res)
    (hstatus : 100 ≤ res.StatusCode ∧ res.StatusCode ≤ 999)
    (hfinal : w.interim = true → 200 ≤ res.StatusCode ∨ res.StatusCode = 101)
    (hwf : res.Header.WF) (hbody : res.Body.err = none) (hw : w.failAt = none)
    (hfresh : w.code = none) :
    ∃ sv, ServeHTTP c w r next = .ok sv
      ∧ sv.err = none
      ∧ sv.w.code = some res.StatusCode
      ∧ sv.w.body = w.body ++ res.Body.chunks.flatten
      ∧ (∀ k ∈ res.Header.map Prod.fst,
          sv.w.header.Values k = w.header.Values k ++ res.Header.lookup k)
      ∧ sv.trace = [Event.render c.Timeout (targetURL c r) none]
          ++ (res.Header.flatMap fun kv => kv.2.map (Event.addHeader kv.1))
          ++ [Event.writeHeader res.StatusCode]
          ++ (res.Body.chunks.filter fun p => p ≠ []).map Event.write
          ++ [Event.closeBody] := by
  rw [ServeHTTP_accepted c w r next ha]
  obtain ⟨a1, a4⟩ := copyHeaders_state w res.Header hwf
  have hc : (copyHeaders w res.Header).1.code = none := by rw [a1]; exact hfresh
  have hi : (copyHeaders w res.Header).1.interim = w.interim := by rw [a1]
  have hwh : (copyHeaders w res.Header).1.WriteHeader res.StatusCode
      = .ok { (copyHeaders w res.Header).1 with code := some res.StatusCode } := by
    have h1 : ¬ (res.StatusCode < 100 ∨ res.StatusCode > 999) := by omega
    have h2 : ¬ ((copyHeaders w res.Header).1.interim = true ∧ res.StatusCode ≤ 199
        ∧ res.StatusCode ≠ 101) := by
      rw [hi]
      rintro ⟨h3, h4, h5⟩
      rcases hfinal h3 with h6 | h6
      · omega
      · exact h5 h6
    unfold ResponseWriter.WriteHeader
    rw [hc]
    simp only [h1, h2, if_false]
  obtain ⟨sv, h1, h2, h3, h4⟩ := renderAndRelay_ok c w _ r cli res hcli hres hwh
  have hio := ioCopy_accepting
    { (copyHeaders w res.Header).1 with code := some res.StatusCode }
    res.Body.chunks res.Body.err res.StatusCode (by rw [a1]; exact hw) rfl
  rw [hio] at h2 h3 h4
  refine ⟨sv, h1, ?_, ?_, ?_, ?_, ?_⟩
  · rw [h3]; exact hbody
  · rw [h2]
  · rw [h2]
    show (copyHeaders w res.Header).1.body ++ res.Body.chunks.flatten = _
    rw [a1]
  · intro k hk
    obtain ⟨kv, hkv, rfl⟩ := List.mem_map.mp hk
    rw [h2]
    show (copyHeaders w res.Header).1.header.Values kv.1 = _
    simp only [Header.Values]
    rw [(a4 _).2 kv hkv rfl,
      Header.lookup_of_mem res.Header kv.1 kv.2 (Header.WF.keys_nodup _ hwf) hkv]
  · rw [h4, hbody, copyHeaders_events]

theorem demo_render :
    (ProxyRendertronClient.toClient refEnv ⟨str "http://localhost:3000/render/"⟩).Render
      demoHandler.Timeout (targetURL demoHandler slackbotRequest) none = .ok okResponse := by
  rfl

/-- The `Slackbot` request gets the backend's 200 response: the writer ends with status 200,
the header `Content-Type: text/html` and the body `<html>ok</html>`. -/
theorem C3_witness :
    ∃ sv, ServeHTTP demoHandler emptyWriter slackbotRequest notFound = .ok sv
      ∧ sv.err = none ∧ sv.w.code = some 200 ∧ sv.w.body = str "<html>ok</html>"
      ∧ sv.w.header.Values (str "Content-Type") = [str "text/html"] := by
  obtain ⟨sv, h1, h2, h3, h4, h5, -⟩ := C3_relays_response demoHandler emptyWriter
    slackbotRequest notFound _ okResponse slackbot_accepted rfl demo_render
    (by decide) (fun _ => Or.inl (by decide))
    (by unfold Header.WF; decide!) rfl rfl rfl
  exact ⟨sv, h1, h2, h3, h4.trans (by decide!),
    (h5 (str "Content-Type") (by decide!)).trans (by decide!)⟩

/-! ## Provision and Validate -/

theorem second_ne_zero : Second ≠ 0 := by decide

/-- What `provisionPatterns` has set when it returns nil. -/
theorem provisionPatterns_nil (env : Env) (c c2 : Rendertron)
    (h : provisionPatterns env c = (c2, none)) :
    c2.cli = c.cli
      ∧ (c.ExcludeUrlPattern = [] → c2.excludeUrlPattern = some defaultExcludeUrlPattern)
      ∧ (c.ExcludeUrlPattern ≠ [] → ∃ re, env.regexpCompile c.ExcludeUrlPattern = .ok re
          ∧ c2.excludeUrlPattern = some re)
      ∧ (c.UserAgentPattern = [] → c2.userAgentPattern = some defaultUserAgentPatern)
      ∧ (c.UserAgentPattern ≠ [] → ∃ re, env.regexpCompile c.UserAgentPattern = .ok re
          ∧ c2.userAgentPattern = some re)
      ∧ c2.Timeout ≠ 0 ∧ (c.Timeout = 0 → c2.Timeout = 11 * Second)
      ∧ (c.Timeout ≠ 0 → c2.Timeout = c.Timeout)
      ∧ c2.ForwardedHostHeader ≠ []
      ∧ (c.ForwardedHostHeader = [] → c2.ForwardedHostHeader = str "X-Forwarded-Host")
      ∧ (c.ForwardedHostHeader ≠ [] → c2.ForwardedHostHeader = c.ForwardedHostHeader) := by
  unfold provisionPatterns at h
  cases hE : (if c.ExcludeUrlPattern = [] then Except.ok defaultExcludeUrlPattern
      else env.regexpCompile c.ExcludeUrlPattern) with
  | error err => simp [hE] at h
  | ok re1 =>
    cases hU : (if c.UserAgentPattern = [] then Except.ok defaultUserAgentPatern
        else env.regexpCompile c.UserAgentPattern) with
    | error err => simp [hE, hU] at h
    | ok re2 =>
      simp only [hE, hU] at h
      have hc := (Prod.mk.inj h).1
      subst hc
      have hx1 : c.ExcludeUrlPattern = [] → re1 = defaultExcludeUrlPattern := by
        intro hx
        rw [if_pos hx] at hE
        exact (Except.ok.inj hE).symm
      have hx2 : c.ExcludeUrlPattern ≠ [] → env.regexpCompile c.ExcludeUrlPattern = .ok re1 := by
        intro hx
        rw [if_neg hx] at hE
        exact hE
      have hu1 : c.UserAgentPattern = [] → re2 = defaultUserAgentPatern := by
        intro hx
        rw [if_pos hx] at hU
        exact (Except.ok.inj hU).symm
      have hu2 : c.UserAgentPattern ≠ [] → env.regexpCompile c.UserAgentPattern = .ok re2 := by
        intro hx
        rw [if_neg hx] at hU
        exact hU
      have hstr : str "X-Forwarded-Host" ≠ [] := by decide
      refine ⟨?_, ?_, ?_, ?_, ?_, ?_, ?_, ?_, ?_, ?_, ?_⟩
      · by_cases hT : c.Timeout = 0 <;> by_cases hF : c.ForwardedHostHeader = [] <;>
          simp [hT, hF]
      · intro hx
        by_cases hT : c.Timeout = 0 <;> by_cases hF : c.ForwardedHostHeader = [] <;>
          simp [hT, hF, hx1 hx]
      · intro hx
        refine ⟨re1, hx2 hx, ?_⟩
        by_cases hT : c.Timeout = 0 <;> by_cases hF : c.ForwardedHostHeader = [] <;>
          simp [hT, hF]
      · intro hx
        by_cases hT : c.Timeout = 0 <;> by_cases hF : c.ForwardedHostHeader = [] <;>
          simp [hT, hF, hu1 hx]
      · intro hx
        refine ⟨re2, hu2 hx, ?_⟩
        by_cases hT : c.Timeout = 0 <;> by_cases hF : c.ForwardedHostHeader = [] <;>
          simp [hT, hF]
      · by_cases hT : c.Timeout = 0 <;> by_cases hF : c.ForwardedHostHeader = [] <;>
          simp [hT, hF, second_ne_zero]
      · intro hT
        by_cases hF : c.ForwardedHostHeader = [] <;> simp [hT, hF]
      · intro hT
        by_cases hF : c.ForwardedHostHeader = [] <;> simp [hT, hF]
      · by_cases hT : c.Timeout = 0 <;> by_cases hF : c.ForwardedHostHeader = [] <;>
          simp [hT, hF, hstr]
      · intro hF
        by_cases hT : c.Timeout = 0 <;> simp [hT, hF]
      · intro hF
        by_cases hT : c.Timeout = 0 <;> simp [hT, hF]

/-- Whether an exclude or user-agent pattern is configured that does not compile. -/
theorem provisionPatterns_invalid (env : Env) (c : Rendertron)
    (h : (c.ExcludeUrlPattern ≠ [] ∧ ∃ e, env.regexpCompile c.ExcludeUrlPattern = .error e)
      ∨ (c.UserAgentPattern ≠ [] ∧ ∃ e, env.regexpCompile c.UserAgentPattern = .error e)) :
    ∃ e, (provisionPatterns env c).2 = some e := by
  cases hr : (provisionPatterns env c) with
  | mk c2 err =>
    cases err with
    | some e => exact ⟨e, rfl⟩
    | none =>
      obtain ⟨-, -, hx, -, hu, -⟩ := provisionPatterns_nil env c c2 hr
      rcases h with ⟨h1, e, h2⟩ | ⟨h1, e, h2⟩
      · obtain ⟨re, h3, -⟩ := hx h1
        rw [h2] at h3
        cases h3
      · obtain ⟨re, h3, -⟩ := hu h1
        rw [h2] at h3
        cases h3

/-- How `Provision` runs: a proxy that does not parse is an error; the scheme `chrome`
leaves the backend as it was; every other scheme builds the proxy client, which panics on
the empty proxy. -/
theorem Provision_cases (env : Env) (c0 : Rendertron) :
    (∃ e, env.urlParse c0.Proxy = .error e
        ∧ Provision env c0 = .ok (c0, some ("specified proxy is not a valid url: " ++ e)))
      ∨ (∃ pu, env.urlParse c0.Proxy = .ok pu ∧ pu.Scheme = str "chrome"
        ∧ Provision env c0 = .ok (provisionPatterns env c0))
      ∨ (∃ pu, env.urlParse c0.Proxy = .ok pu ∧ pu.Scheme ≠ str "chrome" ∧ c0.Proxy = []
        ∧ Provision env c0 = .error .indexOutOfRange)
      ∨ (∃ pu cli, env.urlParse c0.Proxy = .ok pu ∧ pu.Scheme ≠ str "chrome"
        ∧ c0.Proxy ≠ [] ∧ NewProxyRendertronClient c0.Proxy = .ok cli
        ∧ Provision env c0
            = .ok (provisionPatterns env { c0 with cli := some (cli.toClient env) })) := by
  unfold Provision
  cases hpu : env.urlParse c0.Proxy with
  | error e => exact Or.inl ⟨e, rfl, rfl⟩
  | ok pu =>
    by_cases hs : pu.Scheme = str "chrome"
    · exact Or.inr (Or.inl ⟨pu, rfl, hs, by simp [hs]⟩)
    · by_cases hp : c0.Proxy = []
      · refine Or.inr (Or.inr (Or.inl ⟨pu, rfl, hs, hp, ?_⟩))
        simp [hs, hp, NewProxyRendertronClient]
      · obtain ⟨cli, hcli⟩ : ∃ cli, NewProxyRendertronClient c0.Proxy = .ok cli := by
          unfold NewProxyRendertronClient
          cases hl : c0.Proxy.getLast? with
          | none => exact absurd (List.getLast?_eq_none_iff.mp hl) hp
          | some c => exact ⟨_, rfl⟩
        refine Or.inr (Or.inr (Or.inr ⟨pu, cli, rfl, hs, hp, hcli, ?_⟩))
        simp [hs, hcli]

/-- What `Provision` has done when it returns nil. -/
theorem Provision_nil (env : Env) (c0 c : Rendertron)
    (h : Provision env c0 = .ok (c, none)) :
    Initialised env c0 c
      ∧ ∃ pu, env.urlParse c0.Proxy = .ok pu
        ∧ (pu.Scheme = str "chrome" → c.cli = c0.cli)
        ∧ (pu.Scheme ≠ str "chrome" → c.cli.isSome = true) := by
  rcases Provision_cases env c0 with ⟨e, -, h2⟩ | ⟨pu, h1, hs, h2⟩ | ⟨pu, -, -, -, h2⟩
    | ⟨pu, cli, h1, hs, -, -, h2⟩
  · rw [h2] at h
    cases h
  · rw [h2] at h
    have h3 := provisionPatterns_nil env c0 c (Except.ok.inj h)
    exact ⟨h3.2, pu, h1, fun _ => h3.1, fun hn => absurd hs hn⟩
  · rw [h2] at h
    cases h
  · rw [h2] at h
    have h3 := provisionPatterns_nil env _ c (Except.ok.inj h)
    exact ⟨h3.2, pu, h1, fun hn => absurd hn hs, fun _ => by rw [h3.1]; rfl⟩

theorem Initialised.patterns (env : Env) (c0 c : Rendertron) (h : Initialised env c0 c) :
    c.excludeUrlPattern.isSome = true ∧ c.userAgentPattern.isSome = true := by
  obtain ⟨h1, h2, h3, h4, -⟩ := h
  constructor
  · by_cases hx : c0.ExcludeUrlPattern = []
    · rw [h1 hx]; rfl
    · obtain ⟨re, -, h5⟩ := h2 hx
      rw [h5]; rfl
  · by_cases hx : c0.UserAgentPattern = []
    · rw [h3 hx]; rfl
    · obtain ⟨re, -, h5⟩ := h4 hx
      rw [h5]; rfl

/-- An invalid pattern never lets `Provision` return nil, and with a non-empty proxy
`Provision` returns an error. -/
theorem Provision_invalid (env : Env) (c0 : Rendertron) (hinv : InvalidPattern env c0) :
    (∀ c, Provision env c0 ≠ .ok (c, none))
      ∧ (c0.Proxy ≠ [] → ∃ c e, Provision env c0 = .ok (c, some e)) := by
  constructor
  · intro c h
    obtain ⟨⟨-, hx, -, hu, -⟩, -⟩ := Provision_nil env c0 c h
    rcases hinv with ⟨h1, e, h2⟩ | ⟨h1, e, h2⟩
    · obtain ⟨re, h3, -⟩ := hx h1
      rw [h2] at h3
      cases h3
    · obtain ⟨re, h3, -⟩ := hu h1
      rw [h2] at h3
      cases h3
  · intro hp
    rcases Provision_cases env c0 with ⟨e, -, h2⟩ | ⟨pu, -, -, h2⟩ | ⟨pu, -, -, h3, -⟩
      | ⟨pu, cli, -, -, -, -, h2⟩
    · exact ⟨_, _, h2⟩
    · obtain ⟨e, he⟩ := provisionPatterns_invalid env c0 hinv
      exact ⟨(provisionPatterns env c0).1, e, by rw [h2, ← he]⟩
    · exact absurd h3 hp
    · obtain ⟨e, he⟩ := provisionPatterns_invalid env
        { c0 with cli := some (cli.toClient env) } hinv
      exact ⟨_, e, by rw [h2, ← he]⟩

/-- C9 (the code departs from the claim on an empty proxy).  Wherever `Provision` returns
nil on a loaded handler, the state is initialised (`Initialised`), `Validate` returns nil
exactly when a backend is selected and an error when none is, and no backend is selected
exactly when the scheme of the proxy URL is `chrome`.  A pattern that does not compile
never lets `Provision` return nil, and makes it return an error when the proxy is not
empty.  On the empty proxy with the exclude pattern `(`, which does not compile,
`Provision` does not return an error: it panics with an index out of range. -/
theorem C9_initialised_but_panics_on_empty_proxy :
    (∀ (env : Env) (c0 c : Rendertron), Loaded c0 → Provision env c0 = .ok (c, none) →
        Initialised env c0 c
          ∧ (Validate c = none ↔ c.cli.isSome = true)
          ∧ (c.cli = none → ∃ e, Validate c = some e)
          ∧ (c.cli = none
              ↔ ∃ pu, env.urlParse c0.Proxy = .ok pu ∧ pu.Scheme = str "chrome"))
      ∧ (∀ (env : Env) (c0 : Rendertron), InvalidPattern env c0 →
          (∀ c, Provision env c0 ≠ .ok (c, none))
            ∧ (c0.Proxy ≠ [] → ∃ c e, Provision env c0 = .ok (c, some e)))
      ∧ (InvalidPattern refEnv badRegexConfig
          ∧ Provision refEnv badRegexConfig = .error Panic.indexOutOfRange) := by
  refine ⟨?_, Provision_invalid, ⟨Or.inl ⟨by decide, _, rfl⟩, rfl⟩⟩
  intro env c0 c hl hp
  obtain ⟨hi, pu, hpu, hc1, hc2⟩ := Provision_nil env c0 c hp
  obtain ⟨hx, hu⟩ := Initialised.patterns env c0 c hi
  have hval : Validate c = none ↔ c.cli.isSome = true := by
    unfold Validate
    cases h1 : c.excludeUrlPattern with
    | none => rw [h1] at hx; cases hx
    | some exp =>
      cases h2 : c.userAgentPattern with
      | none => rw [h2] at hu; cases hu
      | some uap => cases h3 : c.cli <;> simp
  refine ⟨hi, hval, ?_, ?_⟩
  · intro hn
    cases hv : Validate c with
    | none =>
      have h4 := hval.mp hv
      rw [hn] at h4
      cases h4
    | some e => exact ⟨e, rfl⟩
  · constructor
    · intro hn
      by_cases hs : pu.Scheme = str "chrome"
      · exact ⟨pu, hpu, hs⟩
      · have := hc2 hs
        rw [hn] at this
        cases this
    · rintro ⟨pu2, hpu2, hs⟩
      rw [hpu] at hpu2
      cases hpu2
      rw [hc1 hs]
      exact hl.1

/-- C10 (the code departs from the claim on an empty proxy).  On a non-empty proxy
`Provision` returns (nil or an error).  On the empty proxy, which `url.Parse` accepts with an
empty scheme, `Provision` reaches `NewProxyRendertronClient` and the index expression
`proxy[len(proxy)-1]` is out of range: `Provision` panics instead of returning an error. -/
theorem C10_provision_panics_on_empty_proxy (env : Env) :
    (∀ c0 : Rendertron, c0.Proxy ≠ [] → ∃ res, Provision env c0 = .ok res)
      ∧ (∀ (c0 : Rendertron) (pu : URL), c0.Proxy = [] → env.urlParse [] = .ok pu →
          pu.Scheme ≠ str "chrome" → Provision env c0 = .error Panic.indexOutOfRange)
      ∧ NewProxyRendertronClient [] = .error Panic.indexOutOfRange
      ∧ refEnv.urlParse [] = .ok ⟨[]⟩
      ∧ Provision refEnv emptyProxyConfig = .error Panic.indexOutOfRange := by
  refine ⟨?_, ?_, rfl, rfl, rfl⟩
  · intro c0 hp
    rcases Provision_cases env c0 with ⟨e, -, h2⟩ | ⟨pu, -, -, h2⟩ | ⟨pu, -, -, h3, -⟩
      | ⟨pu, cli, -, -, -, -, h2⟩
    · exact ⟨_, h2⟩
    · exact ⟨_, h2⟩
    · exact absurd h3 hp
    · exact ⟨_, h2⟩
  · intro c0 pu hp hpu hs
    rcases Provision_cases env c0 with ⟨e, h1, -⟩ | ⟨pu2, h1, hs2, -⟩ | ⟨pu2, -, -, -, h2⟩
      | ⟨pu2, cli, -, -, h3, -⟩
    · rw [hp, hpu] at h1
      cases h1
    · rw [hp, hpu] at h1
      cases h1
      exact absurd hs2 hs
    · exact h2
    · exact absurd hp h3

/-! ## The default patterns -/

/-- The patterns of a handler provisioned without configured patterns are the defaults. -/
theorem default_patterns (env : Env) (c0 c : Rendertron) (hx : c0.ExcludeUrlPattern = [])
    (hu : c0.UserAgentPattern = []) (hp : Provision env c0 = .ok (c, none)) :
    c.userAgentPattern = some defaultUserAgentPatern
      ∧ c.excludeUrlPattern = some defaultExcludeUrlPattern := by
  obtain ⟨⟨h1, -, h3, -⟩, -⟩ := Provision_nil env c0 c hp
  exact ⟨h3 hu, h1 hx⟩

/-- C7: on a handler provisioned and validated with no pattern configured, a request whose
`User-Agent` is one of the 16 signatures of `botUserAgents` is rendered (one `Render`
call, the next handler not called), since the signature matches the default user-agent
pattern and not the default exclude pattern; a request whose `User-Agent` is a signature
followed by a dot and an extension of `staticFileExtensions` is passed to the next handler;
and the default exclude pattern matches exactly the strings that end in a dot followed by
a listed extension. -/
theorem C7_catalog_rendered_static_passed (env : Env) (c0 c : Rendertron)
    (w : ResponseWriter) (r : Request) (next : Handler) (hx : c0.ExcludeUrlPattern = [])
    (hu : c0.UserAgentPattern = []) (hp : Provision env c0 = .ok (c, none))
    (hv : Validate c = none) :
    (∀ s ∈ botUserAgents, r.Header.Get (str "User-Agent") = s →
        ∃ sv, ServeHTTP c w r next = .ok sv
          ∧ (renderCalls sv.trace).length = 1 ∧ Event.next ∉ sv.trace)
      ∧ (∀ s ∈ botUserAgents, ∀ e ∈ staticFileExtensions,
          r.Header.Get (str "User-Agent") = s ++ str "." ++ e →
            ServeHTTP c w r next
              = .ok ⟨(next.ServeHTTP w r).1, (next.ServeHTTP w r).2, [.next]⟩)
      ∧ (∀ s ∈ botUserAgents, defaultUserAgentPatern.MatchString s = true
          ∧ defaultExcludeUrlPattern.MatchString s = false)
      ∧ (∀ s, defaultExcludeUrlPattern.MatchString s = true
          ↔ ∃ e ∈ staticFileExtensions, HasSuffix s (str "." ++ e) = true)
      ∧ botUserAgents.length = 16 := by
  obtain ⟨hua, hex⟩ := default_patterns env c0 c hx hu hp
  obtain ⟨-, -, cli, -, -, hcli⟩ := validated_fields c hv
  refine ⟨?_, ?_, fun s hs => (catalog_rendered s hs).2, defaultExclude_matches, rfl⟩
  · intro s hs hr
    obtain ⟨h1, h2, h3⟩ := catalog_rendered s hs
    have ha : Accepted c r := by
      refine ⟨_, _, hua, hex, ?_⟩
      unfold passes
      rw [hr, h2, h3]
      rintro (h | h | h)
      · exact h1 h
      · cases h
      · cases h
    obtain ⟨sv, h4, h5, h6⟩ := accepted_renders_once c w r next cli ha hcli
    exact ⟨sv, h4, by rw [h5]; rfl, h6⟩
  · intro s hs e he hr
    refine ServeHTTP_passes c w r next _ _ hua hex (Or.inr (Or.inr ?_))
    rw [hr]
    exact catalog_with_extension_matches s hs e he

/-- The default handler passes the request of `Slackbot.png` to the next handler. -/
theorem C7_witness :
    ServeHTTP demoHandler emptyWriter slackbotPngRequest notFound
      = .ok ⟨(notFound.ServeHTTP emptyWriter slackbotPngRequest).1,
          (notFound.ServeHTTP emptyWriter slackbotPngRequest).2, [.next]⟩ :=
  (C7_catalog_rendered_static_passed refEnv demoConfig demoHandler emptyWriter
    slackbotPngRequest notFound rfl rfl demo_provision rfl).2.1
    (str "Slackbot") (by decide!) (str "png") (by decide!) (by decide!)

/-- C8, as it fails: the default handler passes the `Googlebot` request for `/logo.png`
to the next handler although the default exclude pattern does not match `Googlebot`. -/
theorem C8_counterexample :
    googlebotRequest.Header.Get (str "User-Agent") = str "Googlebot"
      ∧ HasSuffix googlebotRequest.RequestURI (str ".png") = true
      ∧ ServeHTTP demoHandler emptyWriter googlebotRequest notFound
          = .ok ⟨(notFound.ServeHTTP emptyWriter googlebotRequest).1,
              (notFound.ServeHTTP emptyWriter googlebotRequest).2, [.next]⟩
      ∧ defaultExcludeUrlPattern.MatchString (str "Googlebot") = false := by
  refine ⟨by decide!, by decide!, ?_, googlebot_unmatched.2⟩
  refine ServeHTTP_passes demoHandler emptyWriter googlebotRequest notFound
    defaultUserAgentPatern defaultExcludeUrlPattern rfl rfl (Or.inr (Or.inl ?_))
  decide!

/-- C8, amended: on a handler provisioned with no pattern configured, a request whose
`User-Agent` is `Googlebot` is passed to the next handler, whatever its path, because
`Googlebot` does not match the default user-agent pattern (it is not in `botUserAgents`);
the default exclude pattern does not match `Googlebot` either. -/
theorem C8_googlebot_passed_as_unlisted (env : Env) (c0 c : Rendertron)
    (w : ResponseWriter) (r : Request) (next : Handler) (hx : c0.ExcludeUrlPattern = [])
    (hu : c0.UserAgentPattern = []) (hp : Provision env c0 = .ok (c, none))
    (hr : r.Header.Get (str "User-Agent") = str "Googlebot") :
    ServeHTTP c w r next = .ok ⟨(next.ServeHTTP w r).1, (next.ServeHTTP w r).2, [.next]⟩
      ∧ defaultUserAgentPatern.MatchString (str "Googlebot") = false
      ∧ defaultExcludeUrlPattern.MatchString (str "Googlebot") = false
      ∧ str "Googlebot" ∉ botUserAgents := by
  obtain ⟨hua, hex⟩ := default_patterns env c0 c hx hu hp
  refine ⟨?_, googlebot_unmatched.1, googlebot_unmatched.2, by decide!⟩
  refine ServeHTTP_passes c w r next _ _ hua hex (Or.inr (Or.inl ?_))
  rw [hr]
  exact googlebot_unmatched.1

/-- The default handler passes the `Googlebot` request on. -/
theorem C8_witness :
    ServeHTTP demoHandler emptyWriter googlebotRequest notFound
      = .ok ⟨(notFound.ServeHTTP emptyWriter googlebotRequest).1,
          (notFound.ServeHTTP emptyWriter googlebotRequest).2, [.next]⟩ :=
  (C8_googlebot_passed_as_unlisted refEnv demoConfig demoHandler emptyWriter
    googlebotRequest notFound rfl rfl demo_provision (by decide!)).1

end rendertron
